import Mathlib

/-!
Verification of the Hermes VM object model (JSObject.h) against its
natural-language specification.

The repository slice contains the full header `JSObject.h` (flags,
descriptor-flag types, the ObjectVTable contract and all inline method
bodies), but not `JSObject.cpp`.  Definitions below whose C++ bodies are
present in the header (namedSlotRef, setNamedSlotValue, allocatePropStorage,
forEachOwnPropertyWhile, getOwnNamedDescriptor, the vtable dispatchers) are
translated from that source.  Operations whose bodies live in the missing
`.cpp` (defineOwnProperty / checkPropertyUpdate / addOwnProperty,
defineNewOwnProperty, seal / freeze / preventExtensions, deleteNamed,
setParent, getObjectID, getOwnPropertyNames, the computed-key wrappers and
HiddenClass internals) are modelled from the spec and from their doc
comments in the header; each such definition says so in its doc comment.
-/

namespace HermesModel

/-- Model of HermesValue: a small universe of JavaScript values sufficient
for the object-model operations.  `empty` models the internal "empty"
sentinel returned for missing slots; `accessor` models a reference to a
PropertyAccessor cell (getter/setter pair); `objRef` models a reference to
a heap object (used as a computed key that requires toPrimitive). -/
inductive HermesValue where
  | empty : HermesValue
  | undefined : HermesValue
  | nullv : HermesValue
  | boolean : Bool → HermesValue
  | number : Int → HermesValue
  | str : String → HermesValue
  | accessor : Option Nat → Option Nat → HermesValue
  | objRef : Nat → HermesValue
deriving DecidableEq, Repr

/-- Property flags of a single property, as used by NamedPropertyDescriptor /
ComputedPropertyDescriptor.  Modelled from the spec: "flags (enumerable,
writable, configurable, accessor-or-data, indexed-or-not)" plus the
internalSetter flag referenced by DefinePropertyFlags in the header. -/
structure PropertyFlags where
  enumerable : Bool := false
  writable : Bool := false
  configurable : Bool := false
  accessor : Bool := false
  internalSetter : Bool := false
  indexed : Bool := false
deriving DecidableEq, Repr

namespace PropertyFlags

/-- Flags of a default "normal" data property: enumerable, writable,
configurable. -/
def defaultNewNamedPropertyFlags : PropertyFlags :=
  { enumerable := true, writable := true, configurable := true }

end PropertyFlags

/-- DefinePropertyFlags, translated from the union in JSObject.h: which of
the attributes a defineProperty request explicitly sets, and the values for
those it sets. -/
structure DefinePropertyFlags where
  enumerable : Bool := false
  writable : Bool := false
  configurable : Bool := false
  setEnumerable : Bool := false
  setWritable : Bool := false
  setConfigurable : Bool := false
  setGetter : Bool := false
  setSetter : Bool := false
  setValue : Bool := false
  enableInternalSetter : Bool := false
deriving DecidableEq, Repr

namespace DefinePropertyFlags

/-- Translation of DefinePropertyFlags::isEmpty: all flags clear. -/
def isEmpty (dp : DefinePropertyFlags) : Bool :=
  !dp.enumerable && !dp.writable && !dp.configurable &&
  !dp.setEnumerable && !dp.setWritable && !dp.setConfigurable &&
  !dp.setGetter && !dp.setSetter && !dp.setValue && !dp.enableInternalSetter

/-- Translation of DefinePropertyFlags::isAccessor. -/
def isAccessor (dp : DefinePropertyFlags) : Bool :=
  dp.setGetter || dp.setSetter

/-- Translation of DefinePropertyFlags::getDefaultNewPropertyFlags. -/
def getDefaultNewPropertyFlags : DefinePropertyFlags :=
  { setEnumerable := true, enumerable := true,
    setWritable := true, writable := true,
    setConfigurable := true, configurable := true,
    setValue := true }

/-- Translation of DefinePropertyFlags::getNewNonEnumerableFlags. -/
def getNewNonEnumerableFlags : DefinePropertyFlags :=
  { setEnumerable := true, enumerable := false,
    setWritable := true, writable := true,
    setConfigurable := true, configurable := true,
    setValue := true }

end DefinePropertyFlags

/-- ObjectFlags, translated from the bitfield struct in JSObject.h.  The
objectID field is a 25-bit lazily assigned identity (0 = not yet
assigned). -/
structure ObjectFlags where
  noExtend : Bool := false
  sealed : Bool := false
  frozen : Bool := false
  indexedStorage : Bool := false
  fastIndexProperties : Bool := false
  hostObject : Bool := false
  lazyObject : Bool := false
  objectID : Nat := 0
deriving DecidableEq, Repr

/-- Width of the ObjectFlags::objectID bitfield (kHashWidth in the
header). -/
def kHashWidth : Nat := 25

/-- PropOpFlags, translated from the flag list in JSObject.h: ThrowOnError,
MustExist, InternalForce. -/
structure PropOpFlags where
  throwOnError : Bool := false
  mustExist : Bool := false
  internalForce : Bool := false
deriving DecidableEq, Repr

/-- Model of CallResult: either a normal value or an exception raised
(ExecutionStatus::EXCEPTION).  A TypeError-class failure and an OOM both
travel through the exception alternative, as the spec's error taxonomy
says. -/
inductive CallResult (α : Type) where
  | returned : α → CallResult α
  | exception : CallResult α
deriving DecidableEq, Repr

/-- Result statuses of checkPropertyUpdate, translated from the
PropertyUpdateStatus enum in JSObject.h. -/
inductive PropertyUpdateStatus where
  | failed : PropertyUpdateStatus
  | done : PropertyUpdateStatus
  | needSet : PropertyUpdateStatus
deriving DecidableEq, Repr

/-- NamedPropertyDescriptor: resolved flags plus the slot index in named
storage. -/
structure NamedPropertyDescriptor where
  flags : PropertyFlags
  slot : Nat
deriving DecidableEq, Repr

/-- ComputedPropertyDescriptor: resolved flags plus a slot that is a named
slot index or, when flags.indexed is set, an array index. -/
structure ComputedPropertyDescriptor where
  flags : PropertyFlags
  slot : Nat
deriving DecidableEq, Repr

/-- Modelled from the spec: a Hidden Class is "an ordered map from property
name to (slot index, property flags)" (HiddenClass.h is not in the source
slice).  Entries are kept in insertion order; the slot index of an entry is
its position in the list.  A deleted property leaves a `none` hole so that
the slot indices of the remaining properties are stable, mirroring the
dictionary-mode free list mentioned in the header. -/
structure HiddenClass where
  entries : List (Option (String × PropertyFlags))
deriving DecidableEq, Repr

namespace HiddenClass

/-- Helper for findProperty: scan entries from slot index `i`. -/
def findPropAux : List (Option (String × PropertyFlags)) → Nat → String →
    Option (Nat × PropertyFlags)
  | [], _, _ => none
  | none :: rest, i, name => findPropAux rest (i + 1) name
  | some (n, pf) :: rest, i, name =>
      if n = name then some (i, pf) else findPropAux rest (i + 1) name

/-- Modelled from the spec: HiddenClass::findProperty returns the slot and
flags of a named property, searching entries in insertion order. -/
def findProperty (c : HiddenClass) (name : String) :
    Option (Nat × PropertyFlags) :=
  findPropAux c.entries 0 name

/-- Modelled from the spec: HiddenClass::addProperty appends a new property
at the next fresh slot index and returns the new class together with that
slot. -/
def addProperty (c : HiddenClass) (name : String) (pf : PropertyFlags) :
    HiddenClass × Nat :=
  (⟨c.entries ++ [some (name, pf)]⟩, c.entries.length)

/-- Modelled from the spec: in-place update of the flags stored at a given
slot (the narrowly-scoped mutation used by updateOwnProperty). -/
def setFlagsAt (c : HiddenClass) (slot : Nat) (nf : PropertyFlags) :
    HiddenClass :=
  ⟨c.entries.set slot ((c.entries.getD slot none).map fun e => (e.1, nf))⟩

/-- Modelled from the spec: bulk in-place flag update over every property
(the mechanism behind updatePropertyFlagsWithoutTransitions used by
seal/freeze); it never changes the set of keys or their slot indices. -/
def mapFlags (c : HiddenClass) (f : PropertyFlags → PropertyFlags) :
    HiddenClass :=
  ⟨c.entries.map (Option.map fun e => (e.1, f e.2))⟩

/-- Modelled from the spec: deleting a property leaves a hole at its slot
(slots of other properties are unchanged; freed slots go to a free
list). -/
def deleteAt (c : HiddenClass) (slot : Nat) : HiddenClass :=
  ⟨c.entries.set slot none⟩

/-- Modelled from the spec: HiddenClass::forEachPropertyWhile iterates the
named properties in insertion order, passing each name and descriptor to
the callback; a false return stops the iteration immediately. -/
def forEachPropertyWhileAux
    (cb : String → NamedPropertyDescriptor → Bool) :
    List (Option (String × PropertyFlags)) → Nat → Bool
  | [], _ => true
  | none :: rest, i => forEachPropertyWhileAux cb rest (i + 1)
  | some (n, pf) :: rest, i =>
      if cb n ⟨pf, i⟩ then forEachPropertyWhileAux cb rest (i + 1) else false

/-- Modelled from the spec: entry point of the named-property iteration. -/
def forEachPropertyWhile (c : HiddenClass)
    (cb : String → NamedPropertyDescriptor → Bool) : Bool :=
  forEachPropertyWhileAux cb c.entries 0

/-- Names of the (non-deleted) properties in insertion order, optionally
restricted to enumerable ones. -/
def propertyNames (c : HiddenClass) (onlyEnumerable : Bool) : List String :=
  c.entries.filterMap fun e =>
    e.bind fun p =>
      if !onlyEnumerable || p.2.enumerable then some p.1 else none

end HiddenClass

/-- The JSObject state: object flags, the prototype reference (by heap id,
nullable), the hidden class, the overflow property storage (null until
allocated), the array of direct (inline) slots, and the dense indexed
storage used by the indexed-storage virtual contract.  Translated from the
field list at the bottom of JSObject.h; indexed storage is the
subclass-provided dense backing described by the ObjectVTable contract,
modelled as a dense list with holes. -/
structure JSObject where
  flags : ObjectFlags
  parentId : Option Nat
  clazz : HiddenClass
  propStorage : Option (List HermesValue)
  directProps : List HermesValue
  indexed : List (Option (HermesValue × PropertyFlags))
deriving DecidableEq, Repr

namespace JSObject

/-- Translation of JSObject::DIRECT_PROPERTY_SLOTS. -/
def DIRECT_PROPERTY_SLOTS : Nat := 6

/-- Translation of JSObject::DEFAULT_PROPERTY_CAPACITY. -/
def DEFAULT_PROPERTY_CAPACITY : Nat := 4

/-- Translation of the JSObject factory: fresh object with the given
prototype, the empty hidden class, no property storage, direct slots
cleared, and the indexedStorage/fastIndexProperties flags set at
construction when the concrete kind provides indexed storage. -/
def create (parentId : Option Nat) (withIndexedStorage : Bool) : JSObject :=
  { flags := { indexedStorage := withIndexedStorage,
               fastIndexProperties := withIndexedStorage },
    parentId := parentId,
    clazz := ⟨[]⟩,
    propStorage := none,
    directProps := List.replicate DIRECT_PROPERTY_SLOTS .empty,
    indexed := [] }

/-- Modelled from the spec: a lazily-materialized object is created with the
lazyObject flag set and its objectID preassigned to the lazy object index
(truncated to the 25-bit field). -/
def createLazy (parentId : Option Nat) (lazyIndex : Nat) : JSObject :=
  { create parentId false with
    flags := { lazyObject := true, objectID := lazyIndex % 2 ^ kHashWidth } }

/-- Modelled from the spec: initializing a lazy object materializes its
contents and clears the lazyObject flag; the preassigned objectID is kept
as the permanent identity. -/
def initializeLazyObject (o : JSObject) : JSObject :=
  { o with flags := { o.flags with lazyObject := false } }

/-- Translation of JSObject::isExtensible. -/
def isExtensible (o : JSObject) : Bool := !o.flags.noExtend

/-- Translation of JSObject::namedSlotRef (read side): a slot index below
DIRECT_PROPERTY_SLOTS reads directProps_[index]; otherwise the overflow
storage at index - DIRECT_PROPERTY_SLOTS. -/
def getNamedSlotValue (o : JSObject) (index : Nat) : HermesValue :=
  if index < DIRECT_PROPERTY_SLOTS then o.directProps.getD index .empty
  else (o.propStorage.getD []).getD (index - DIRECT_PROPERTY_SLOTS) .empty

/-- Translation of JSObject::setNamedSlotValue: a slot index below
DIRECT_PROPERTY_SLOTS writes directProps_[index]; otherwise the overflow
storage at index - DIRECT_PROPERTY_SLOTS. -/
def setNamedSlotValue (o : JSObject) (index : Nat) (v : HermesValue) :
    JSObject :=
  if index < DIRECT_PROPERTY_SLOTS then
    { o with directProps := o.directProps.set index v }
  else
    let ps := (o.propStorage.getD []).set (index - DIRECT_PROPERTY_SLOTS) v
    { o with propStorage := some ps }

/-- Translation of JSObject::allocatePropStorage: a requested size within
the direct slots does nothing; otherwise fresh storage of
size - DIRECT_PROPERTY_SLOTS slots is created and installed. -/
def allocatePropStorage (o : JSObject) (size : Nat) : JSObject :=
  if size ≤ DIRECT_PROPERTY_SLOTS then o
  else
    let ps : List HermesValue :=
      List.replicate (size - DIRECT_PROPERTY_SLOTS) .empty
    { o with propStorage := some ps }

/-- Translation of the preallocating JSObject::create overload: create and
then allocate property storage for the given capacity hint. -/
def createWithCapacity (parentId : Option Nat) (withIndexedStorage : Bool)
    (propertyCount : Nat) : JSObject :=
  allocatePropStorage (create parentId withIndexedStorage) propertyCount

/-- Growth of the overflow Property Storage: reallocation that copies the
existing slots and pads with empty values until the needed index fits
(slot indices are stable across growth). -/
def growPropStorage (ps : List HermesValue) (need : Nat) :
    List HermesValue :=
  if ps.length ≤ need then
    ps ++ List.replicate (need + 1 - ps.length) .empty
  else ps

/-- Modelled from the spec: JSObject::allocateNewSlotStorage allocates
backing storage for a freshly allocated slot index and stores the initial
value there; overflow storage grows by reallocation, copying the existing
slots. -/
def allocateNewSlotStorage (o : JSObject) (slot : Nat) (v : HermesValue) :
    JSObject :=
  if slot < DIRECT_PROPERTY_SLOTS then
    { o with directProps := o.directProps.set slot v }
  else
    let ps := growPropStorage (o.propStorage.getD [])
      (slot - DIRECT_PROPERTY_SLOTS)
    { o with propStorage := some (ps.set (slot - DIRECT_PROPERTY_SLOTS) v) }

/-- Translation of JSObject::getOwnNamedDescriptor: findProperty on the
hidden class, packaged as a descriptor. -/
def getOwnNamedDescriptor (o : JSObject) (name : String) :
    Option NamedPropertyDescriptor :=
  (o.clazz.findProperty name).map fun p => ⟨p.2, p.1⟩

/-- Modelled from the spec: addOwnPropertyImpl performs the actual adding of
a property — a hidden-class transition appending the property at the next
fresh slot, then slot storage allocation with the initial value. -/
def addOwnPropertyImpl (o : JSObject) (name : String) (pf : PropertyFlags)
    (v : HermesValue) : JSObject :=
  let t := o.clazz.addProperty name pf
  allocateNewSlotStorage { o with clazz := t.1 } t.2 v

/-- Modelled from the spec: defineNewOwnProperty is the fast path for a
property known not to exist; it skips the update-validity machinery and
stores the caller-provided final PropertyFlags directly. -/
def defineNewOwnProperty (o : JSObject) (name : String) (pf : PropertyFlags)
    (v : HermesValue) : JSObject :=
  addOwnPropertyImpl o name pf v

/-- Synthesis of the final PropertyFlags of a new property from a
DefinePropertyFlags request: attributes not explicitly set default to
false; an accessor property is never writable.  Modelled from the spec's
"create respecting defaults ... or caller-specified via Define-Property
Flags". -/
def PropertyFlags.fromDpFlags (dp : DefinePropertyFlags) : PropertyFlags :=
  { enumerable := dp.setEnumerable && dp.enumerable,
    writable := !dp.isAccessor && dp.setWritable && dp.writable,
    configurable := dp.setConfigurable && dp.configurable,
    accessor := dp.isAccessor,
    internalSetter := dp.enableInternalSetter }

/-- Flag update applied by a valid property update: each attribute
explicitly set by the request is overwritten; an accessor request makes the
property an accessor; a value request on an accessor turns it back into a
data property. -/
def applyDpFlags (cur : PropertyFlags) (dp : DefinePropertyFlags) :
    PropertyFlags :=
  let f := cur
  let f := if dp.setEnumerable then { f with enumerable := dp.enumerable }
           else f
  let f := if dp.setWritable then { f with writable := dp.writable } else f
  let f := if dp.setConfigurable then
             { f with configurable := dp.configurable }
           else f
  let f := if dp.isAccessor then { f with accessor := true, writable := false }
           else f
  let f := if dp.setValue && !dp.isAccessor then { f with accessor := false }
           else f
  let f := if dp.enableInternalSetter then { f with internalSetter := true }
           else f
  f

/-- Failure path of checkPropertyUpdate: raise the TypeError-class failure
when ThrowOnError is requested, otherwise report PropertyUpdateStatus.failed
(the soft false result). -/
def propertyUpdateReject (cur : PropertyFlags) (op : PropOpFlags) :
    CallResult (PropertyUpdateStatus × PropertyFlags) :=
  if op.throwOnError then .exception else .returned (.failed, cur)

/-- Modelled from the spec: JSObject::checkPropertyUpdate — a property
update is rejected when the existing property is non-configurable and the
request changes configurable, enumerable, or the accessor/data kind, or the
existing property is non-configurable-and-non-writable data and the request
changes the value or sets writable.  On a valid update it returns the
updated flags and whether the caller must also set the value. -/
def checkPropertyUpdate (cur : PropertyFlags) (dp : DefinePropertyFlags)
    (curValue : HermesValue) (value : HermesValue) (op : PropOpFlags) :
    CallResult (PropertyUpdateStatus × PropertyFlags) :=
  if !cur.configurable &&
      ((dp.setConfigurable && dp.configurable != cur.configurable) ||
       (dp.setEnumerable && dp.enumerable != cur.enumerable)) then
    propertyUpdateReject cur op
  else if !cur.configurable &&
      ((dp.isAccessor && !cur.accessor) || (dp.setValue && cur.accessor)) then
    propertyUpdateReject cur op
  else if !cur.configurable && !cur.accessor && !cur.writable &&
      ((dp.setWritable && dp.writable) ||
       (dp.setValue && value != curValue)) then
    propertyUpdateReject cur op
  else
    let nf := applyDpFlags cur dp
    if dp.setValue || dp.isAccessor then .returned (.needSet, nf)
    else .returned (.done, nf)

/-- Modelled from the spec: JSObject::updateOwnProperty applies
checkPropertyUpdate to the existing property and, on success, installs the
updated flags (and the new value when required) — on the soft failure it
returns false and leaves the object untouched. -/
def updateOwnProperty (o : JSObject) (slot : Nat) (cur : PropertyFlags)
    (dp : DefinePropertyFlags) (v : HermesValue) (op : PropOpFlags) :
    CallResult (Bool × JSObject) :=
  match checkPropertyUpdate cur dp (getNamedSlotValue o slot) v op with
  | .exception => .exception
  | .returned (.failed, _) => .returned (false, o)
  | .returned (.done, nf) =>
      .returned (true, { o with clazz := o.clazz.setFlagsAt slot nf })
  | .returned (.needSet, nf) =>
      .returned
        (true,
         setNamedSlotValue { o with clazz := o.clazz.setFlagsAt slot nf }
           slot v)

/-- Modelled from the spec and the PropOpFlags documentation in JSObject.h:
JSObject::addOwnProperty rejects adding a property to a non-extensible
object (TypeError-class failure or false result), except that
InternalForce "forces the insertion no matter what". -/
def addOwnProperty (o : JSObject) (name : String)
    (dp : DefinePropertyFlags) (v : HermesValue) (op : PropOpFlags) :
    CallResult (Bool × JSObject) :=
  if o.flags.noExtend && !op.internalForce then
    if op.throwOnError then .exception else .returned (false, o)
  else
    .returned (true, addOwnPropertyImpl o name (PropertyFlags.fromDpFlags dp) v)

/-- Modelled from the spec: JSObject::defineOwnProperty — the general
update-or-create protocol of ES5.1 8.12.9: resolve the existing descriptor;
update it through the validity check when present; otherwise create the
property, subject to extensibility. -/
def defineOwnProperty (o : JSObject) (name : String)
    (dp : DefinePropertyFlags) (v : HermesValue) (op : PropOpFlags) :
    CallResult (Bool × JSObject) :=
  match o.clazz.findProperty name with
  | some (slot, cur) => updateOwnProperty o slot cur dp v op
  | none => addOwnProperty o name dp v op

/-- Modelled from the spec: JSObject::deleteNamed — deleting a
non-configurable property fails (TypeError-class failure with ThrowOnError,
false otherwise); deleting a missing property succeeds; otherwise the
property is removed from the hidden class and its slot cleared. -/
def deleteNamed (o : JSObject) (name : String) (op : PropOpFlags) :
    CallResult (Bool × JSObject) :=
  match o.clazz.findProperty name with
  | none => .returned (true, o)
  | some (slot, pf) =>
      if !pf.configurable then
        if op.throwOnError then .exception else .returned (false, o)
      else
        let o := setNamedSlotValue o slot .empty
        .returned (true, { o with clazz := o.clazz.deleteAt slot })

/-- Translation of JSObject::preventExtensions (ES5.1 15.2.3.10): set
noExtend, preventing adding more properties. -/
def preventExtensions (o : JSObject) : JSObject :=
  { o with flags := { o.flags with noExtend := true } }

/-- Modelled from the spec: JSObject::seal (ES5.1 15.2.3.8) marks all own
properties non-configurable through one bulk hidden-class flag update, does
the same for the indexed elements, and sets the sealed and noExtend flags
(when Sealed is set, NoExtend is always set too). -/
def sealObject (o : JSObject) : JSObject :=
  { o with
    flags := { o.flags with sealed := true, noExtend := true },
    clazz := o.clazz.mapFlags fun pf => { pf with configurable := false },
    indexed := o.indexed.map (Option.map fun e =>
      (e.1, { e.2 with configurable := false })) }

/-- Modelled from the spec: JSObject::freeze (ES5.1 15.2.3.9) marks all own
properties non-configurable and all data properties non-writable, marks the
indexed elements likewise, and sets the frozen, sealed and noExtend
flags. -/
def freeze (o : JSObject) : JSObject :=
  { o with
    flags := { o.flags with frozen := true, sealed := true, noExtend := true },
    clazz := o.clazz.mapFlags fun pf =>
      { pf with configurable := false,
                writable := pf.accessor && pf.writable },
    indexed := o.indexed.map (Option.map fun e =>
      (e.1, { e.2 with configurable := false, writable := false })) }

/-- Translation of the default _getOwnIndexedRangeImpl contract: the
end-exclusive range of indexes stored in indexed storage (the dense model
stores the range starting at 0). -/
def getOwnIndexedRange (o : JSObject) : Nat × Nat := (0, o.indexed.length)

/-- Translation of the haveOwnIndexed dispatcher over the dense model. -/
def haveOwnIndexed (o : JSObject) (i : Nat) : Bool :=
  (o.indexed.getD i none).isSome

/-- Translation of the getOwnIndexedPropertyFlags dispatcher over the dense
model: flags of the element when it exists. -/
def getOwnIndexedPropertyFlags (o : JSObject) (i : Nat) :
    Option PropertyFlags :=
  (o.indexed.getD i none).map fun e => e.2

/-- Translation of the getOwnIndexed dispatcher over the dense model: the
value of the element, or "empty" if there is no such element. -/
def getOwnIndexed (o : JSObject) (i : Nat) : HermesValue :=
  match o.indexed.getD i none with
  | some e => e.1
  | none => .empty

/-- Outcome of coercing a value to the element type of the indexed storage,
from the ObjectVTable::setOwnIndexed documentation: the conversion can
succeed, fail softly (a default value will be stored instead), or raise a
language exception. -/
inductive CoercionOutcome where
  | ok : HermesValue → CoercionOutcome
  | failedSoft : CoercionOutcome
  | raised : CoercionOutcome
deriving DecidableEq, Repr

/-- The default value substituted when element-type coercion fails without
raising. -/
def coercionDefaultValue : HermesValue := .number 0

/-- Whether the element at the given index is read-only (a typed-array or
frozen-storage element whose write is silently ignored). -/
def isReadOnlyElement (o : JSObject) (i : Nat) : Bool :=
  match o.indexed.getD i none with
  | some e => !e.2.writable
  | none => false

/-- Raw element write into the dense indexed model, expanding the storage
range as needed; an existing element keeps its flags. -/
def writeIndexedElement (o : JSObject) (i : Nat) (v : HermesValue) :
    JSObject :=
  let ind :=
    if i < o.indexed.length then o.indexed
    else o.indexed ++ List.replicate (i + 1 - o.indexed.length) none
  let pf :=
    match ind.getD i none with
    | some e => e.2
    | none => PropertyFlags.defaultNewNamedPropertyFlags
  { o with indexed := ind.set i (some (v, pf)) }

/-- Modelled from the spec and the ObjectVTable::setOwnIndexed contract:
the element write first coerces the value to the element type (an exception
there abandons the write; a soft failure substitutes the default value),
and is silently ignored — a false result — when the element is read-only;
otherwise the write is applied and the call returns true.  The coercion is
a parameter because it depends on the concrete indexed-storage kind. -/
def setOwnIndexed (o : JSObject) (i : Nat) (v : HermesValue)
    (coerce : HermesValue → CoercionOutcome) : CallResult (Bool × JSObject) :=
  match coerce v with
  | .raised => .exception
  | .failedSoft =>
      if isReadOnlyElement o i then .returned (false, o)
      else .returned (true, writeIndexedElement o i coercionDefaultValue)
  | .ok cv =>
      if isReadOnlyElement o i then .returned (false, o)
      else .returned (true, writeIndexedElement o i cv)

/-- Translation of the indexed loop of JSObject::forEachOwnPropertyWhile:
iterate the indexed range in order, skipping holes, building a computed
descriptor with the indexed flag set, stopping as soon as the callback
returns false. -/
def forEachIndexedWhileAux (o : JSObject)
    (cb : Nat → ComputedPropertyDescriptor → Bool) :
    List Nat → Bool
  | [] => true
  | i :: rest =>
      match getOwnIndexedPropertyFlags o i with
      | none => forEachIndexedWhileAux o cb rest
      | some pf =>
          if cb i ⟨{ pf with indexed := true }, i⟩ then
            forEachIndexedWhileAux o cb rest
          else false

/-- Translation of JSObject::forEachOwnPropertyWhile: first the indexed
callback over the indexed range, short-circuiting on a false return, then
HiddenClass::forEachPropertyWhile over the named properties. -/
def forEachOwnPropertyWhile (o : JSObject)
    (indexedCB : Nat → ComputedPropertyDescriptor → Bool)
    (namedCB : String → NamedPropertyDescriptor → Bool) : Bool :=
  let range := getOwnIndexedRange o
  if forEachIndexedWhileAux o indexedCB (List.range' range.1 (range.2 - range.1))
  then o.clazz.forEachPropertyWhile namedCB
  else false

/-- Indexes that survive the enumerability filter, in ascending order. -/
def ownIndexedNames (o : JSObject) (onlyEnumerable : Bool) : List Nat :=
  (List.range o.indexed.length).filter fun i =>
    match o.indexed.getD i none with
    | some e => !onlyEnumerable || e.2.enumerable
    | none => false

/-- Modelled from the spec: JSObject::getOwnPropertyNames — first the
properties whose names look like indexes, in numeric order, then the rest,
in insertion order; with onlyEnumerable set, only enumerable properties are
returned. -/
def getOwnPropertyNames (o : JSObject) (onlyEnumerable : Bool) :
    List String :=
  ((ownIndexedNames o onlyEnumerable).map fun i => toString i)
    ++ o.clazz.propertyNames onlyEnumerable

/-- Whether a key value requires the user-visible toPrimitive/toString
conversion before it can be used as a property key: only heap objects
do. -/
def needsToPrimitive : HermesValue → Bool
  | .objRef _ => true
  | _ => false

/-- Result of the user-visible toString on an object key (the primitive the
conversion produces). -/
def objToStringValue : HermesValue → HermesValue
  | .objRef i => .str (Nat.repr i)
  | v => v

/-- Modelled from the spec: conversion of an arbitrary key value to a
primitive property key.  The second component counts the user-visible
toString invocations performed so far, so side-effect multiplicity is
observable: converting an object key performs exactly one. -/
def toPropertyKey (v : HermesValue) (cnt : Nat) : HermesValue × Nat :=
  if needsToPrimitive v then (objToStringValue v, cnt + 1) else (v, cnt)

/-- Whether a primitive key is a valid array index, and its numeric
value. -/
def asArrayIndex : HermesValue → Option Nat
  | .number n => if 0 ≤ n then some n.toNat else none
  | .str s => s.toNat?
  | _ => none

/-- The string form of a primitive key used for named access. -/
def keyToNameString : HermesValue → String
  | .str s => s
  | .number n => toString n
  | .boolean b => if b then "true" else "false"
  | .undefined => "undefined"
  | .nullv => "null"
  | _ => ""

/-- Modelled from the spec: getOwnComputedPrimitiveDescriptor resolves a
primitive key to an indexed descriptor (when the key is an array index and
the object has indexed storage) or to a named descriptor; it performs no
key conversion. -/
def getOwnComputedPrimitiveDescriptor (o : JSObject) (key : HermesValue) :
    Option ComputedPropertyDescriptor :=
  match asArrayIndex key with
  | some i =>
      if o.flags.indexedStorage then
        match getOwnIndexedPropertyFlags o i with
        | some pf => some ⟨{ pf with indexed := true }, i⟩
        | none => none
      else
        (o.clazz.findProperty (keyToNameString key)).map fun p => ⟨p.2, p.1⟩
  | none =>
      (o.clazz.findProperty (keyToNameString key)).map fun p => ⟨p.2, p.1⟩

/-- Modelled from the spec: the wrapper getOwnComputedDescriptor converts
the key to a primitive exactly once (so the side effect only happens once)
and then calls getOwnComputedPrimitiveDescriptor. -/
def getOwnComputedDescriptor (o : JSObject) (k : HermesValue) (cnt : Nat) :
    Option ComputedPropertyDescriptor × Nat :=
  let r := toPropertyKey k cnt
  (getOwnComputedPrimitiveDescriptor o r.1, r.2)

/-- Read through a resolved computed descriptor: indexed storage when the
indexed flag is set, named slot storage otherwise (getComputedSlotValue in
the header); an unresolved lookup yields undefined. -/
def getComputedPrimitive (o : JSObject) (key : HermesValue) : HermesValue :=
  match getOwnComputedPrimitiveDescriptor o key with
  | some d =>
      if d.flags.indexed then getOwnIndexed o d.slot
      else getNamedSlotValue o d.slot
  | none => .undefined

/-- Modelled from the spec: getComputed converts the key once, then resolves
to named or indexed access. -/
def getComputed (o : JSObject) (k : HermesValue) (cnt : Nat) :
    HermesValue × Nat :=
  let r := toPropertyKey k cnt
  (getComputedPrimitive o r.1, r.2)

/-- Existence check for a primitive key (no conversion). -/
def hasComputedPrimitive (o : JSObject) (key : HermesValue) : Bool :=
  (getOwnComputedPrimitiveDescriptor o key).isSome

/-- Modelled from the spec: hasComputed converts the key once, then checks
existence. -/
def hasComputed (o : JSObject) (k : HermesValue) (cnt : Nat) : Bool × Nat :=
  let r := toPropertyKey k cnt
  (hasComputedPrimitive o r.1, r.2)

/-- Modelled from the spec: putComputedPrimitive writes through a resolved
descriptor (indexed or named), rejecting a read-only named property, and
creates the property or indexed element when absent; no key conversion. -/
def putComputedPrimitive (o : JSObject) (key : HermesValue)
    (v : HermesValue) (op : PropOpFlags) : CallResult (Bool × JSObject) :=
  match getOwnComputedPrimitiveDescriptor o key with
  | some d =>
      if d.flags.indexed then setOwnIndexed o d.slot v .ok
      else if !d.flags.writable then
        if op.throwOnError then .exception else .returned (false, o)
      else .returned (true, setNamedSlotValue o d.slot v)
  | none =>
      match asArrayIndex key with
      | some i =>
          if o.flags.indexedStorage then setOwnIndexed o i v .ok
          else
            addOwnProperty o (keyToNameString key)
              .getDefaultNewPropertyFlags v op
      | none =>
          addOwnProperty o (keyToNameString key)
            .getDefaultNewPropertyFlags v op

/-- Modelled from the spec: putComputed converts the key once, then writes
through the named or indexed path. -/
def putComputed (o : JSObject) (k : HermesValue) (v : HermesValue)
    (op : PropOpFlags) (cnt : Nat) : CallResult (Bool × JSObject) × Nat :=
  let r := toPropertyKey k cnt
  (putComputedPrimitive o r.1 v op, r.2)

/-- Modelled from the spec: deleteComputedPrimitive deletes an indexed
element (leaving a hole) or delegates to deleteNamed; no key conversion. -/
def deleteComputedPrimitive (o : JSObject) (key : HermesValue)
    (op : PropOpFlags) : CallResult (Bool × JSObject) :=
  match asArrayIndex key with
  | some i =>
      if o.flags.indexedStorage then
        .returned (true, { o with indexed := o.indexed.set i none })
      else deleteNamed o (keyToNameString key) op
  | none => deleteNamed o (keyToNameString key) op

/-- Modelled from the spec: deleteComputed converts the key once, then
deletes through the named or indexed path. -/
def deleteComputed (o : JSObject) (k : HermesValue) (op : PropOpFlags)
    (cnt : Nat) : CallResult (Bool × JSObject) × Nat :=
  let r := toPropertyKey k cnt
  (deleteComputedPrimitive o r.1 op, r.2)

/-- Modelled from the spec: defineOwnComputedPrimitive defines through the
indexed path (when the key is an array index on an indexed-storage object)
or through defineOwnProperty; no key conversion. -/
def defineOwnComputedPrimitive (o : JSObject) (key : HermesValue)
    (dp : DefinePropertyFlags) (v : HermesValue) (op : PropOpFlags) :
    CallResult (Bool × JSObject) :=
  match asArrayIndex key with
  | some i =>
      if o.flags.indexedStorage then setOwnIndexed o i v .ok
      else defineOwnProperty o (keyToNameString key) dp v op
  | none => defineOwnProperty o (keyToNameString key) dp v op

/-- Modelled from the spec: defineOwnComputed converts the key once (so a
user-visible toString runs at most once), then defines through the
primitive path. -/
def defineOwnComputed (o : JSObject) (k : HermesValue)
    (dp : DefinePropertyFlags) (v : HermesValue) (op : PropOpFlags)
    (cnt : Nat) : CallResult (Bool × JSObject) × Nat :=
  let r := toPropertyKey k cnt
  (defineOwnComputedPrimitive o r.1 dp v op, r.2)

end JSObject

/-- Object identity numbers are natural numbers; 0 means "not yet
assigned". -/
abbrev ObjectID := Nat

/-- The slice of runtime state relevant to identity assignment: the
generator for fresh object IDs. -/
structure RuntimeState where
  nextObjectID : Nat := 0
deriving DecidableEq, Repr

/-- Modelled from the spec: the runtime's fresh-ID generator always returns
a nonzero value fitting the 25-bit objectID field. -/
def generateNextObjectID (rt : RuntimeState) : ObjectID × RuntimeState :=
  (rt.nextObjectID % (2 ^ kHashWidth - 1) + 1, ⟨rt.nextObjectID + 1⟩)

namespace JSObject

/-- Modelled from the spec: JSObject::getObjectID returns the already
assigned identity when there is one (nonzero), and otherwise assigns a
fresh nonzero identity and stores it in the objectID field. -/
def getObjectID (o : JSObject) (rt : RuntimeState) :
    ObjectID × JSObject × RuntimeState :=
  if o.flags.objectID ≠ 0 then (o.flags.objectID, o, rt)
  else
    let g := generateNextObjectID rt
    (g.1, { o with flags := { o.flags with objectID := g.1 } }, g.2)

/-- Translation of JSObject::getAlreadyAssignedObjectID: the body asserts
that an ID has been assigned; a call before assignment violates that
programming-error assertion, modelled as the none result (there is no
recoverable error channel here). -/
def getAlreadyAssignedObjectID (o : JSObject) : Option ObjectID :=
  if o.flags.objectID ≠ 0 then some o.flags.objectID else none

end JSObject

/-- A heap: an association of object ids to objects, needed to talk about
prototype chains across objects. -/
abbrev Heap := List (Nat × JSObject)

/-- Status of an operation that can only succeed or raise, mirroring
ExecutionStatus in the source. -/
inductive ExecStatus where
  | returned : ExecStatus
  | exception : ExecStatus
deriving DecidableEq, Repr

namespace Heap

/-- The parent (prototype) pointer of an object in the heap, by id. -/
def parentOf (h : Heap) (x : Nat) : Option Nat :=
  match h.lookup x with
  | some o => o.parentId
  | none => none

/-- Replace the object stored at an id. -/
def update (h : Heap) (id : Nat) (f : JSObject → JSObject) : Heap :=
  h.map fun p => if p.1 = id then (p.1, f p.2) else p

/-- The prototype-chain walk used by the cycle detection in setParent:
starting from an optional object id, follow parent pointers for at most
fuel additional steps, looking for the target id. -/
def chainContains (h : Heap) : Nat → Option Nat → Nat → Bool
  | _, none, _ => false
  | 0, some s, target => s = target
  | fuel + 1, some s, target =>
      s = target || chainContains h fuel (parentOf h s) target

/-- Whether assigning newParent as the prototype of selfId would create a
prototype cycle: the chain from newParent reaches selfId. -/
def createsCycle (h : Heap) (selfId : Nat) (newParent : Option Nat) : Bool :=
  chainContains h h.length newParent selfId

/-- Modelled from the spec and the setParent doc comment in JSObject.h
(ES6 9.1.2 [[SetPrototypeOf]]): does nothing if the value doesn't change;
fails if the object isn't extensible; fails if it detects a prototype
cycle; otherwise installs the new parent.  A failure performs no
mutation. -/
def setParent (h : Heap) (selfId : Nat) (newParent : Option Nat) :
    ExecStatus × Heap :=
  match h.lookup selfId with
  | none => (.returned, h)
  | some o =>
      if newParent = o.parentId then (.returned, h)
      else if o.flags.noExtend then (.exception, h)
      else if createsCycle h selfId newParent then (.exception, h)
      else (.returned, h.update selfId fun q => { q with parentId := newParent })

/-- Iterated parent pointers: follow exactly n parent links. -/
def iterParent (h : Heap) : Nat → Nat → Option Nat
  | 0, x => some x
  | n + 1, x => (parentOf h x).bind (iterParent h n)

/-- b lies on the strict prototype chain of a (at least one link). -/
def Reaches (h : Heap) (a b : Nat) : Prop :=
  ∃ n, 0 < n ∧ iterParent h n a = some b

/-- No object lies on its own strict prototype chain. -/
def Acyclic (h : Heap) : Prop := ∀ a, ¬ Reaches h a a

end Heap

/-! Flag-preservation lemmas: the property-storage and property-definition
operations never touch the object flags. -/

namespace JSObject

theorem flags_setNamedSlotValue (o : JSObject) (i : Nat) (v : HermesValue) :
    (setNamedSlotValue o i v).flags = o.flags := by
  unfold setNamedSlotValue
  split <;> rfl

theorem flags_allocatePropStorage (o : JSObject) (n : Nat) :
    (allocatePropStorage o n).flags = o.flags := by
  unfold allocatePropStorage
  split <;> rfl

theorem flags_allocateNewSlotStorage (o : JSObject) (slot : Nat)
    (v : HermesValue) : (allocateNewSlotStorage o slot v).flags = o.flags := by
  unfold allocateNewSlotStorage
  split <;> rfl

theorem flags_addOwnPropertyImpl (o : JSObject) (name : String)
    (pf : PropertyFlags) (v : HermesValue) :
    (addOwnPropertyImpl o name pf v).flags = o.flags := by
  unfold addOwnPropertyImpl
  rw [flags_allocateNewSlotStorage]

theorem flags_defineNewOwnProperty (o : JSObject) (name : String)
    (pf : PropertyFlags) (v : HermesValue) :
    (defineNewOwnProperty o name pf v).flags = o.flags :=
  flags_addOwnPropertyImpl o name pf v

theorem flags_updateOwnProperty {o : JSObject} {slot : Nat}
    {cur : PropertyFlags} {dp : DefinePropertyFlags} {v : HermesValue}
    {op : PropOpFlags} {b : Bool} {o' : JSObject}
    (h : updateOwnProperty o slot cur dp v op = .returned (b, o')) :
    o'.flags = o.flags := by
  unfold updateOwnProperty at h
  split at h
  · exact absurd h (by simp)
  · simp only [CallResult.returned.injEq, Prod.mk.injEq] at h
    rw [← h.2]
  · simp only [CallResult.returned.injEq, Prod.mk.injEq] at h
    rw [← h.2]
  · simp only [CallResult.returned.injEq, Prod.mk.injEq] at h
    rw [← h.2, flags_setNamedSlotValue]

theorem flags_addOwnProperty {o : JSObject} {name : String}
    {dp : DefinePropertyFlags} {v : HermesValue} {op : PropOpFlags}
    {b : Bool} {o' : JSObject}
    (h : addOwnProperty o name dp v op = .returned (b, o')) :
    o'.flags = o.flags := by
  unfold addOwnProperty at h
  split at h
  · split at h
    · exact absurd h (by simp)
    · simp only [CallResult.returned.injEq, Prod.mk.injEq] at h
      rw [← h.2]
  · simp only [CallResult.returned.injEq, Prod.mk.injEq] at h
    rw [← h.2, flags_addOwnPropertyImpl]

theorem flags_defineOwnProperty {o : JSObject} {name : String}
    {dp : DefinePropertyFlags} {v : HermesValue} {op : PropOpFlags}
    {b : Bool} {o' : JSObject}
    (h : defineOwnProperty o name dp v op = .returned (b, o')) :
    o'.flags = o.flags := by
  unfold defineOwnProperty at h
  split at h
  · exact flags_updateOwnProperty h
  · exact flags_addOwnProperty h

theorem flags_deleteNamed {o : JSObject} {name : String} {op : PropOpFlags}
    {b : Bool} {o' : JSObject}
    (h : deleteNamed o name op = .returned (b, o')) : o'.flags = o.flags := by
  unfold deleteNamed at h
  split at h
  · simp only [CallResult.returned.injEq, Prod.mk.injEq] at h
    rw [← h.2]
  · split at h
    · split at h
      · exact absurd h (by simp)
      · simp only [CallResult.returned.injEq, Prod.mk.injEq] at h
        rw [← h.2]
    · simp only [CallResult.returned.injEq, Prod.mk.injEq] at h
      rw [← h.2, flags_setNamedSlotValue]

theorem flags_writeIndexedElement (o : JSObject) (i : Nat)
    (v : HermesValue) : (writeIndexedElement o i v).flags = o.flags := rfl

theorem flags_setOwnIndexed {o : JSObject} {i : Nat} {v : HermesValue}
    {coerce : HermesValue → CoercionOutcome} {b : Bool} {o' : JSObject}
    (h : setOwnIndexed o i v coerce = .returned (b, o')) :
    o'.flags = o.flags := by
  unfold setOwnIndexed at h
  split at h
  · exact absurd h (by simp)
  · split at h <;>
      (simp only [CallResult.returned.injEq, Prod.mk.injEq] at h
       rw [← h.2])
    rw [flags_writeIndexedElement]
  · split at h <;>
      (simp only [CallResult.returned.injEq, Prod.mk.injEq] at h
       rw [← h.2])
    rw [flags_writeIndexedElement]

theorem flags_putComputedPrimitive {o : JSObject} {key v : HermesValue}
    {op : PropOpFlags} {b : Bool} {o' : JSObject}
    (h : putComputedPrimitive o key v op = .returned (b, o')) :
    o'.flags = o.flags := by
  unfold putComputedPrimitive at h
  split at h
  · split at h
    · exact flags_setOwnIndexed h
    · split at h
      · split at h
        · exact absurd h (by simp)
        · simp only [CallResult.returned.injEq, Prod.mk.injEq] at h
          rw [← h.2]
      · simp only [CallResult.returned.injEq, Prod.mk.injEq] at h
        rw [← h.2, flags_setNamedSlotValue]
  · split at h
    · split at h
      · exact flags_setOwnIndexed h
      · exact flags_addOwnProperty h
    · exact flags_addOwnProperty h

theorem flags_deleteComputedPrimitive {o : JSObject} {key : HermesValue}
    {op : PropOpFlags} {b : Bool} {o' : JSObject}
    (h : deleteComputedPrimitive o key op = .returned (b, o')) :
    o'.flags = o.flags := by
  unfold deleteComputedPrimitive at h
  split at h
  · split at h
    · simp only [CallResult.returned.injEq, Prod.mk.injEq] at h
      rw [← h.2]
    · exact flags_deleteNamed h
  · exact flags_deleteNamed h

end JSObject

/-- The states of the object model reachable through its public operations:
the factory methods followed by any sequence of property definitions,
deletions, indexed writes, flag mutations (seal / freeze /
preventExtensions), slot writes, computed-key mutations and identity
assignment. -/
inductive Reachable : JSObject → Prop where
  | createStep (pid : Option Nat) (wis : Bool) :
      Reachable (JSObject.create pid wis)
  | createWithCapacityStep (pid : Option Nat) (wis : Bool) (n : Nat) :
      Reachable (JSObject.createWithCapacity pid wis n)
  | createLazyStep (pid : Option Nat) (idx : Nat) :
      Reachable (JSObject.createLazy pid idx)
  | initializeLazyStep (o : JSObject) : Reachable o →
      Reachable (JSObject.initializeLazyObject o)
  | defineOwnPropertyStep (o : JSObject) (name : String)
      (dp : DefinePropertyFlags) (v : HermesValue) (op : PropOpFlags)
      (b : Bool) (o' : JSObject) : Reachable o →
      JSObject.defineOwnProperty o name dp v op = .returned (b, o') →
      Reachable o'
  | defineNewOwnPropertyStep (o : JSObject) (name : String)
      (pf : PropertyFlags) (v : HermesValue) : Reachable o →
      Reachable (JSObject.defineNewOwnProperty o name pf v)
  | deleteNamedStep (o : JSObject) (name : String) (op : PropOpFlags)
      (b : Bool) (o' : JSObject) : Reachable o →
      JSObject.deleteNamed o name op = .returned (b, o') → Reachable o'
  | sealStep (o : JSObject) : Reachable o → Reachable (JSObject.sealObject o)
  | freezeStep (o : JSObject) : Reachable o → Reachable (JSObject.freeze o)
  | preventExtensionsStep (o : JSObject) : Reachable o →
      Reachable (JSObject.preventExtensions o)
  | setOwnIndexedStep (o : JSObject) (i : Nat) (v : HermesValue)
      (coerce : HermesValue → JSObject.CoercionOutcome) (b : Bool)
      (o' : JSObject) : Reachable o →
      JSObject.setOwnIndexed o i v coerce = .returned (b, o') → Reachable o'
  | putComputedStep (o : JSObject) (k v : HermesValue) (op : PropOpFlags)
      (cnt : Nat) (b : Bool) (o' : JSObject) : Reachable o →
      (JSObject.putComputed o k v op cnt).1 = .returned (b, o') →
      Reachable o'
  | deleteComputedStep (o : JSObject) (k : HermesValue) (op : PropOpFlags)
      (cnt : Nat) (b : Bool) (o' : JSObject) : Reachable o →
      (JSObject.deleteComputed o k op cnt).1 = .returned (b, o') →
      Reachable o'
  | setNamedSlotStep (o : JSObject) (i : Nat) (v : HermesValue) :
      Reachable o → Reachable (JSObject.setNamedSlotValue o i v)
  | getObjectIDStep (o : JSObject) (rt : RuntimeState) : Reachable o →
      Reachable (JSObject.getObjectID o rt).2.1

/-- The flag-implication invariant: sealed implies noExtend, frozen implies
sealed, and fastIndexProperties implies indexedStorage. -/
def GoodFlags (f : ObjectFlags) : Prop :=
  (f.sealed = true → f.noExtend = true) ∧
  (f.frozen = true → f.sealed = true) ∧
  (f.fastIndexProperties = true → f.indexedStorage = true)

/-- C2: for every object O in every reachable state, the flag implications
hold: sealed implies noExtend, frozen implies sealed (hence noExtend), and
fastIndexProperties implies indexedStorage; every operation of the object
model (including seal, freeze, preventExtensions, defineOwnProperty,
delete) preserves these implications. -/
theorem C2_flag_implication_invariant (o : JSObject) (h : Reachable o) :
    GoodFlags o.flags := by
  induction h with
  | createStep pid wis =>
      refine ⟨?_, ?_, ?_⟩ <;> simp [JSObject.create]
  | createWithCapacityStep pid wis n =>
      unfold JSObject.createWithCapacity
      rw [JSObject.flags_allocatePropStorage]
      refine ⟨?_, ?_, ?_⟩ <;> simp [JSObject.create]
  | createLazyStep pid idx =>
      refine ⟨?_, ?_, ?_⟩ <;> simp [JSObject.createLazy, JSObject.create]
  | initializeLazyStep o _ ih => exact ih
  | defineOwnPropertyStep o name dp v op b o' _ heq ih =>
      rw [JSObject.flags_defineOwnProperty heq]; exact ih
  | defineNewOwnPropertyStep o name pf v _ ih =>
      rw [JSObject.flags_defineNewOwnProperty]; exact ih
  | deleteNamedStep o name op b o' _ heq ih =>
      rw [JSObject.flags_deleteNamed heq]; exact ih
  | sealStep o _ ih => exact ⟨fun _ => rfl, fun _ => rfl, ih.2.2⟩
  | freezeStep o _ ih => exact ⟨fun _ => rfl, fun _ => rfl, ih.2.2⟩
  | preventExtensionsStep o _ ih => exact ⟨fun _ => rfl, ih.2.1, ih.2.2⟩
  | setOwnIndexedStep o i v coerce b o' _ heq ih =>
      rw [JSObject.flags_setOwnIndexed heq]; exact ih
  | putComputedStep o k v op cnt b o' _ heq ih =>
      have hp : JSObject.putComputedPrimitive o
          (JSObject.toPropertyKey k cnt).1 v op = .returned (b, o') := heq
      rw [JSObject.flags_putComputedPrimitive hp]; exact ih
  | deleteComputedStep o k op cnt b o' _ heq ih =>
      have hp : JSObject.deleteComputedPrimitive o
          (JSObject.toPropertyKey k cnt).1 op = .returned (b, o') := heq
      rw [JSObject.flags_deleteComputedPrimitive hp]; exact ih
  | setNamedSlotStep o i v _ ih =>
      rw [JSObject.flags_setNamedSlotValue]; exact ih
  | getObjectIDStep o rt _ ih =>
      unfold JSObject.getObjectID
      split
      · exact ih
      · exact ih

/-- Witness for C2: the invariant evaluated at a concrete reachable state,
a freshly created indexed-storage object that was then sealed. -/
theorem C2_flag_implication_invariant_witness :
    GoodFlags ((JSObject.sealObject (JSObject.create none true)).flags) :=
  C2_flag_implication_invariant _
    (Reachable.sealStep _ (Reachable.createStep none true))

/-! Small list helpers used by the storage proofs. -/

theorem getD_set_self {α : Type} (l : List α) (i : Nat) (a d : α)
    (h : i < l.length) : (l.set i a).getD i d = a := by
  rw [List.getD_eq_getD_get?, List.get?_set_eq_of_lt a h, Option.getD_some]

theorem getD_set_ne {α : Type} (l : List α) (i j : Nat) (a d : α)
    (h : i ≠ j) : (l.set i a).getD j d = l.getD j d := by
  rw [List.getD_eq_getD_get?, List.get?_set_ne a l h, ← List.getD_eq_getD_get?]

namespace JSObject

theorem propStorage_allocateNewSlotStorage_lt (o : JSObject) (slot : Nat)
    (v : HermesValue) (h : slot < DIRECT_PROPERTY_SLOTS) :
    (allocateNewSlotStorage o slot v).propStorage = o.propStorage := by
  unfold allocateNewSlotStorage
  rw [if_pos h]

theorem directProps_allocateNewSlotStorage_ge (o : JSObject) (slot : Nat)
    (v : HermesValue) (h : ¬ slot < DIRECT_PROPERTY_SLOTS) :
    (allocateNewSlotStorage o slot v).directProps = o.directProps := by
  unfold allocateNewSlotStorage
  rw [if_neg h]

theorem need_lt_length_growPropStorage (ps : List HermesValue) (need : Nat) :
    need < (growPropStorage ps need).length := by
  unfold growPropStorage
  split
  · next h =>
      simp only [List.length_append, List.length_replicate]
      omega
  · next h => omega

theorem getNamedSlotValue_allocateNewSlotStorage (o : JSObject) (slot : Nat)
    (v : HermesValue) (hd : o.directProps.length = DIRECT_PROPERTY_SLOTS) :
    getNamedSlotValue (allocateNewSlotStorage o slot v) slot = v := by
  unfold allocateNewSlotStorage getNamedSlotValue
  split
  · next hlt =>
      exact getD_set_self _ _ _ _ (hd ▸ hlt)
  · next hge =>
      simp only [Option.getD_some]
      exact getD_set_self _ _ _ _ (need_lt_length_growPropStorage _ _)

end JSObject

/-- C4: named slot indices below the inline capacity of 6 resolve to the
direct slots and never touch Property Storage (reads depend only on
directProps, writes leave propStorage untouched, and adding properties
while the hidden class still has fewer than 6 slots allocates nothing);
slot indices at or above 6 resolve to Property Storage at index - 6; a
capacity hint within the direct slots allocates no Property Storage; and
adding the 7th property (slot 6) allocates Property Storage while the six
inline values remain retrievable at their original slot indices. -/
theorem C4_inline_property_storage (o : JSObject) (i j : Nat)
    (v : HermesValue) (name : String) (pf : PropertyFlags) :
    (∀ pid wis,
      (JSObject.createWithCapacity pid wis
        JSObject.DEFAULT_PROPERTY_CAPACITY).propStorage = none) ∧
    (i < JSObject.DIRECT_PROPERTY_SLOTS →
      JSObject.getNamedSlotValue o i = o.directProps.getD i .empty ∧
      (JSObject.setNamedSlotValue o i v).propStorage = o.propStorage) ∧
    (JSObject.DIRECT_PROPERTY_SLOTS ≤ i →
      JSObject.getNamedSlotValue o i =
        (o.propStorage.getD []).getD
          (i - JSObject.DIRECT_PROPERTY_SLOTS) .empty) ∧
    (o.clazz.entries.length < JSObject.DIRECT_PROPERTY_SLOTS →
      (JSObject.addOwnPropertyImpl o name pf v).propStorage =
        o.propStorage) ∧
    (o.clazz.entries.length = JSObject.DIRECT_PROPERTY_SLOTS →
      (JSObject.addOwnPropertyImpl o name pf v).propStorage.isSome = true ∧
      (j < JSObject.DIRECT_PROPERTY_SLOTS →
        JSObject.getNamedSlotValue
            (JSObject.addOwnPropertyImpl o name pf v) j =
          JSObject.getNamedSlotValue o j)) := by
  refine ⟨fun pid wis => rfl, fun hi => ⟨?_, ?_⟩, fun hi => ?_, fun hlen => ?_,
    fun hlen => ⟨?_, fun hj => ?_⟩⟩
  · unfold JSObject.getNamedSlotValue
    rw [if_pos hi]
  · unfold JSObject.setNamedSlotValue
    rw [if_pos hi]
  · unfold JSObject.getNamedSlotValue
    rw [if_neg (Nat.not_lt.mpr hi)]
  · unfold JSObject.addOwnPropertyImpl HiddenClass.addProperty
    exact JSObject.propStorage_allocateNewSlotStorage_lt _ _ _ hlen
  · unfold JSObject.addOwnPropertyImpl HiddenClass.addProperty
      JSObject.allocateNewSlotStorage
    rw [if_neg (by simp [hlen])]
    rfl
  · unfold JSObject.addOwnPropertyImpl HiddenClass.addProperty
    have hslot : ¬ o.clazz.entries.length < JSObject.DIRECT_PROPERTY_SLOTS :=
      by omega
    unfold JSObject.getNamedSlotValue
    rw [JSObject.directProps_allocateNewSlotStorage_ge _ _ _ hslot,
      if_pos hj, if_pos hj]

/-- A concrete object whose six named properties exactly fill the direct
slots. -/
def sampleObject6 : JSObject :=
  ((((((JSObject.createWithCapacity none false 4).addOwnPropertyImpl
    "a" .defaultNewNamedPropertyFlags (.number 0)).addOwnPropertyImpl
    "b" .defaultNewNamedPropertyFlags (.number 1)).addOwnPropertyImpl
    "c" .defaultNewNamedPropertyFlags (.number 2)).addOwnPropertyImpl
    "d" .defaultNewNamedPropertyFlags (.number 3)).addOwnPropertyImpl
    "e" .defaultNewNamedPropertyFlags (.number 4)).addOwnPropertyImpl
    "f" .defaultNewNamedPropertyFlags (.number 5)

/-- Witness for C4: the six-property object has no Property Storage; its
seventh property allocates Property Storage and a direct slot keeps its
value. -/
theorem C4_inline_property_storage_witness :
    sampleObject6.clazz.entries.length = JSObject.DIRECT_PROPERTY_SLOTS ∧
    sampleObject6.propStorage = none ∧
    ((JSObject.addOwnPropertyImpl sampleObject6 "g"
        .defaultNewNamedPropertyFlags (.number 6)).propStorage.isSome = true ∧
     (3 < JSObject.DIRECT_PROPERTY_SLOTS →
       JSObject.getNamedSlotValue
           (JSObject.addOwnPropertyImpl sampleObject6 "g"
             .defaultNewNamedPropertyFlags (.number 6)) 3 =
         JSObject.getNamedSlotValue sampleObject6 3)) :=
  ⟨by decide, by decide,
    (C4_inline_property_storage sampleObject6 0 3 (.number 6) "g"
      .defaultNewNamedPropertyFlags).2.2.2.2 (by decide)⟩

theorem findPropAux_append_last (l : List (Option (String × PropertyFlags)))
    (i : Nat) (name : String) (pf : PropertyFlags)
    (h : HiddenClass.findPropAux l i name = none) :
    HiddenClass.findPropAux (l ++ [some (name, pf)]) i name =
      some (i + l.length, pf) := by
  induction l generalizing i with
  | nil => simp [HiddenClass.findPropAux]
  | cons e rest ih =>
      cases e with
      | none =>
          simp only [List.cons_append, HiddenClass.findPropAux,
            List.append_eq] at h ⊢
          rw [ih _ h]
          simp only [Option.some.injEq, Prod.mk.injEq, List.length_cons]
          exact ⟨by omega, trivial⟩
      | some p =>
          obtain ⟨n, pfe⟩ := p
          simp only [List.cons_append, HiddenClass.findPropAux,
            List.append_eq] at h ⊢
          split at h
          · exact absurd h (by simp)
          · next hne =>
              rw [if_neg hne, ih _ h]
              simp only [Option.some.injEq, Prod.mk.injEq, List.length_cons]
              exact ⟨by omega, trivial⟩

theorem clazz_allocateNewSlotStorage (o : JSObject) (slot : Nat)
    (v : HermesValue) :
    (JSObject.allocateNewSlotStorage o slot v).clazz = o.clazz := by
  unfold JSObject.allocateNewSlotStorage
  split <;> rfl

/-- C6: for every object O, non-existing property name, property flags and
value, defineNewOwnProperty followed by getOwnNamedDescriptor succeeds and
yields a descriptor carrying exactly the given flags and a slot whose
stored value equals the given value. -/
theorem C6_define_get_roundtrip (o : JSObject) (name : String)
    (pf : PropertyFlags) (v : HermesValue)
    (habs : o.clazz.findProperty name = none)
    (hd : o.directProps.length = JSObject.DIRECT_PROPERTY_SLOTS) :
    JSObject.getOwnNamedDescriptor
        (JSObject.defineNewOwnProperty o name pf v) name =
      some ⟨pf, o.clazz.entries.length⟩ ∧
    JSObject.getNamedSlotValue (JSObject.defineNewOwnProperty o name pf v)
        o.clazz.entries.length = v := by
  constructor
  · unfold JSObject.getOwnNamedDescriptor JSObject.defineNewOwnProperty
      JSObject.addOwnPropertyImpl HiddenClass.addProperty
    rw [clazz_allocateNewSlotStorage]
    unfold HiddenClass.findProperty
    rw [findPropAux_append_last _ _ _ _ habs]
    simp
  · unfold JSObject.defineNewOwnProperty JSObject.addOwnPropertyImpl
      HiddenClass.addProperty
    exact JSObject.getNamedSlotValue_allocateNewSlotStorage _ _ _ hd

/-- Witness for C6: round-trip at a concrete object, name, flags and
value. -/
theorem C6_define_get_roundtrip_witness :
    sampleObject6.clazz.findProperty "g" = none ∧
    sampleObject6.directProps.length = JSObject.DIRECT_PROPERTY_SLOTS ∧
    (JSObject.getOwnNamedDescriptor
        (JSObject.defineNewOwnProperty sampleObject6 "g"
          .defaultNewNamedPropertyFlags (.str "val")) "g" =
      some ⟨.defaultNewNamedPropertyFlags, sampleObject6.clazz.entries.length⟩ ∧
     JSObject.getNamedSlotValue
        (JSObject.defineNewOwnProperty sampleObject6 "g"
          .defaultNewNamedPropertyFlags (.str "val"))
        sampleObject6.clazz.entries.length = .str "val") :=
  ⟨by decide, by decide,
    C6_define_get_roundtrip sampleObject6 "g" .defaultNewNamedPropertyFlags
      (.str "val") (by decide) (by decide)⟩

theorem lt_length_extendIndexed
    (l : List (Option (HermesValue × PropertyFlags))) (i : Nat) :
    i < (if i < l.length then l
         else l ++ List.replicate (i + 1 - l.length) none).length := by
  split
  · assumption
  · simp only [List.length_append, List.length_replicate]
    omega

theorem getOwnIndexed_writeIndexedElement (o : JSObject) (i : Nat)
    (v : HermesValue) :
    JSObject.getOwnIndexed (JSObject.writeIndexedElement o i v) i = v := by
  unfold JSObject.writeIndexedElement JSObject.getOwnIndexed
  dsimp only
  rw [getD_set_self _ _ _ _ (lt_length_extendIndexed _ _)]

/-- C5: for every write via setOwnIndexed, the call returns true, with the
write applied, when the element is writable and coercion does not raise;
false (a success result, no exception, object untouched) exactly when the
element is read-only and coercion did not raise; and exception status
exactly when value coercion raises; when coercion fails without raising,
the default value is substituted and the write still succeeds with result
true. -/
theorem C5_setOwnIndexed_outcomes (o : JSObject) (i : Nat) (v : HermesValue)
    (coerce : HermesValue → JSObject.CoercionOutcome) :
    (JSObject.setOwnIndexed o i v coerce = .exception ↔
      coerce v = .raised) ∧
    (JSObject.setOwnIndexed o i v coerce = .returned (false, o) ↔
      coerce v ≠ .raised ∧ JSObject.isReadOnlyElement o i = true) ∧
    (coerce v = .failedSoft → JSObject.isReadOnlyElement o i = false →
      JSObject.setOwnIndexed o i v coerce =
        .returned (true, JSObject.writeIndexedElement o i
          JSObject.coercionDefaultValue)) ∧
    (∀ cv, coerce v = .ok cv → JSObject.isReadOnlyElement o i = false →
      JSObject.setOwnIndexed o i v coerce =
        .returned (true, JSObject.writeIndexedElement o i cv)) ∧
    (∀ w, JSObject.getOwnIndexed (JSObject.writeIndexedElement o i w) i = w)
    := by
  refine ⟨?_, ?_, ?_, ?_, fun w => getOwnIndexed_writeIndexedElement o i w⟩
  · cases hcv : coerce v with
    | raised => simp [JSObject.setOwnIndexed, hcv]
    | failedSoft =>
        simp only [JSObject.setOwnIndexed, hcv]
        split <;> simp
    | ok cv =>
        simp only [JSObject.setOwnIndexed, hcv]
        split <;> simp
  · cases hcv : coerce v with
    | raised => simp [JSObject.setOwnIndexed, hcv]
    | failedSoft =>
        simp only [JSObject.setOwnIndexed, hcv]
        split
        · next hro => simp [hro]
        · next hro => simp [Bool.not_eq_true _ ▸ hro]
    | ok cv =>
        simp only [JSObject.setOwnIndexed, hcv]
        split
        · next hro => simp [hro]
        · next hro => simp [Bool.not_eq_true _ ▸ hro]
  · intro hcv hro
    simp [JSObject.setOwnIndexed, hcv, hro]
  · intro cv hcv hro
    simp [JSObject.setOwnIndexed, hcv, hro]

/-- Witness for C5: a soft-failing coercion on a writable element applies
the write with the default value and returns true. -/
theorem C5_setOwnIndexed_outcomes_witness :
    ((fun _ : HermesValue => JSObject.CoercionOutcome.failedSoft)
        (.str "x") = .failedSoft) ∧
    JSObject.isReadOnlyElement (JSObject.create none true) 0 = false ∧
    JSObject.setOwnIndexed (JSObject.create none true) 0 (.str "x")
        (fun _ => .failedSoft) =
      .returned (true, JSObject.writeIndexedElement (JSObject.create none true)
        0 JSObject.coercionDefaultValue) :=
  ⟨rfl, by decide,
    (C5_setOwnIndexed_outcomes (JSObject.create none true) 0 (.str "x")
      (fun _ => .failedSoft)).2.2.1 rfl (by decide)⟩

/-- C8: every computed-key operation (getComputed, putComputed, hasComputed,
deleteComputed, defineOwnComputed, and the descriptor wrapper) converts the
key to a primitive property key exactly once: the user-visible toString
counter advances by one when the key is an object, and by zero
otherwise. -/
theorem C8_computed_key_single_conversion (o : JSObject) (k v : HermesValue)
    (dp : DefinePropertyFlags) (op : PropOpFlags) (cnt : Nat) :
    (JSObject.getComputed o k cnt).2 =
      cnt + (if JSObject.needsToPrimitive k then 1 else 0) ∧
    (JSObject.hasComputed o k cnt).2 =
      cnt + (if JSObject.needsToPrimitive k then 1 else 0) ∧
    (JSObject.putComputed o k v op cnt).2 =
      cnt + (if JSObject.needsToPrimitive k then 1 else 0) ∧
    (JSObject.deleteComputed o k op cnt).2 =
      cnt + (if JSObject.needsToPrimitive k then 1 else 0) ∧
    (JSObject.defineOwnComputed o k dp v op cnt).2 =
      cnt + (if JSObject.needsToPrimitive k then 1 else 0) ∧
    (JSObject.getOwnComputedDescriptor o k cnt).2 =
      cnt + (if JSObject.needsToPrimitive k then 1 else 0) := by
  refine ⟨?_, ?_, ?_, ?_, ?_, ?_⟩ <;>
    (simp only [JSObject.getComputed, JSObject.hasComputed,
      JSObject.putComputed, JSObject.deleteComputed,
      JSObject.defineOwnComputed, JSObject.getOwnComputedDescriptor,
      JSObject.toPropertyKey]
     split <;> rfl)

/-- C9: the identity number is 0 until first requested via getObjectID,
nonzero and stable once assigned; a lazily-materialized object keeps its
preassigned lazy index as its permanent identity; and
getAlreadyAssignedObjectID hits the programming-error assertion (modelled
as none) exactly when no ID has been assigned. -/
theorem C9_objectID_lifecycle (o : JSObject) (pid : Option Nat) (wis : Bool)
    (idx : Nat) (rt rt2 : RuntimeState) :
    (JSObject.create pid wis).flags.objectID = 0 ∧
    (JSObject.getObjectID o rt).1 ≠ 0 ∧
    JSObject.getObjectID (JSObject.getObjectID o rt).2.1 rt2 =
      ((JSObject.getObjectID o rt).1, (JSObject.getObjectID o rt).2.1, rt2) ∧
    (JSObject.initializeLazyObject
        (JSObject.createLazy pid idx)).flags.objectID =
      idx % 2 ^ kHashWidth ∧
    (JSObject.getAlreadyAssignedObjectID o = none ↔
      o.flags.objectID = 0) ∧
    (idx % 2 ^ kHashWidth ≠ 0 →
      (JSObject.getObjectID
          (JSObject.initializeLazyObject (JSObject.createLazy pid idx))
          rt).1 = idx % 2 ^ kHashWidth) := by
  refine ⟨rfl, ?_, ?_, rfl, ?_, ?_⟩
  · unfold JSObject.getObjectID
    split
    · next h => exact h
    · simp [generateNextObjectID]
  · unfold JSObject.getObjectID
    split
    · next h => simp [JSObject.getObjectID, h]
    · next h =>
        have hg : (generateNextObjectID rt).1 ≠ 0 := by
          simp [generateNextObjectID]
        simp [JSObject.getObjectID, hg]
  · unfold JSObject.getAlreadyAssignedObjectID
    split
    · next h => simp [h]
    · next h => simp at h; simp [h]
  · intro hnz
    have h : (JSObject.initializeLazyObject
        (JSObject.createLazy pid idx)).flags.objectID ≠ 0 := hnz
    simp only [JSObject.getObjectID, if_pos h]
    rfl

/-- Witness for C9: the lazy-identity conjunct at a concrete lazy index. -/
theorem C9_objectID_lifecycle_witness :
    (5 % 2 ^ kHashWidth ≠ 0) ∧
    (JSObject.getObjectID
        (JSObject.initializeLazyObject (JSObject.createLazy none 5))
        ⟨0⟩).1 = 5 % 2 ^ kHashWidth :=
  ⟨by decide,
    (C9_objectID_lifecycle (JSObject.create none false) none false 5 ⟨0⟩
      ⟨0⟩).2.2.2.2.2 (by decide)⟩

theorem forEachIndexedWhileAux_all (o : JSObject) (p : Nat → Bool)
    (l : List Nat) :
    JSObject.forEachIndexedWhileAux o (fun i _ => p i) l =
      ((l.filter fun i =>
          (JSObject.getOwnIndexedPropertyFlags o i).isSome).all p) := by
  induction l with
  | nil => rfl
  | cons i rest ih =>
      unfold JSObject.forEachIndexedWhileAux
      cases hf : JSObject.getOwnIndexedPropertyFlags o i with
      | none => simp [hf, ih]
      | some pf =>
          by_cases hp : p i
          · simp [hf, hp, ih]
          · simp [hf, hp]

theorem forEachPropertyWhileAux_all (q : String → Bool)
    (l : List (Option (String × PropertyFlags))) (i : Nat) :
    HiddenClass.forEachPropertyWhileAux (fun n _ => q n) l i =
      ((l.filterMap fun e => e.map Prod.fst).all q) := by
  induction l generalizing i with
  | nil => rfl
  | cons e rest ih =>
      cases e with
      | none =>
          unfold HiddenClass.forEachPropertyWhileAux
          simp only [List.filterMap_cons, Option.map_none]
          exact ih _
      | some pr =>
          obtain ⟨n, pf⟩ := pr
          unfold HiddenClass.forEachPropertyWhileAux
          by_cases hq : q n
          · simp [hq, ih]
          · simp [hq]

theorem ownIndexedNames_false_eq (o : JSObject) :
    JSObject.ownIndexedNames o false =
      (List.range o.indexed.length).filter fun i =>
        (JSObject.getOwnIndexedPropertyFlags o i).isSome := by
  unfold JSObject.ownIndexedNames JSObject.getOwnIndexedPropertyFlags
  congr 1
  funext i
  cases o.indexed.getD i none with
  | none => rfl
  | some e => rfl

theorem propertyNames_false_eq (c : HiddenClass) :
    c.propertyNames false = c.entries.filterMap fun e => e.map Prod.fst := by
  unfold HiddenClass.propertyNames
  congr 1
  funext e
  cases e with
  | none => rfl
  | some pr => rfl

/-- A concrete object with indexed elements at indices 5 and 2 (in that
write order) and named properties added in order b then a. -/
def sampleEnumObject : JSObject :=
  ((JSObject.writeIndexedElement
      (JSObject.writeIndexedElement (JSObject.create none true) 5
        (.number 50)) 2 (.number 20)).addOwnPropertyImpl
    "b" .defaultNewNamedPropertyFlags (.number 1)).addOwnPropertyImpl
    "a" .defaultNewNamedPropertyFlags (.number 2)

/-- C3: enumeration yields the indexed properties first, in ascending
numeric order, then the named properties in insertion order — for
getOwnPropertyNames (the returned list decomposes into the ascending
indexed part followed by the insertion-ordered named part) and for
forEachOwnPropertyWhile (the indexed callback runs over exactly the
indexed properties and the named callback over exactly the named ones, in
that order, with short-circuit); in particular, with indexed properties at
indices 5 and 2 and named properties added in order b, a,
getOwnPropertyNames yields exactly 2, 5, b, a. -/
theorem C3_enumeration_order (o : JSObject) (onlyEnumerable : Bool)
    (p : Nat → Bool) (q : String → Bool) :
    JSObject.getOwnPropertyNames o onlyEnumerable =
      ((JSObject.ownIndexedNames o onlyEnumerable).map fun i => toString i)
        ++ o.clazz.propertyNames onlyEnumerable ∧
    List.Pairwise (· < ·) (JSObject.ownIndexedNames o onlyEnumerable) ∧
    (JSObject.forEachOwnPropertyWhile o (fun i _ => p i) (fun n _ => q n) =
      ((JSObject.ownIndexedNames o false).all p &&
        (o.clazz.propertyNames false).all q)) ∧
    JSObject.getOwnPropertyNames sampleEnumObject false =
      ["2", "5", "b", "a"] := by
  refine ⟨rfl, ?_, ?_, by decide⟩
  · exact (List.pairwise_lt_range _).sublist (List.filter_sublist _)
  · unfold JSObject.forEachOwnPropertyWhile JSObject.getOwnIndexedRange
    unfold HiddenClass.forEachPropertyWhile
    simp only [Nat.sub_zero, ← List.range_eq_range',
      forEachIndexedWhileAux_all, ← ownIndexedNames_false_eq,
      forEachPropertyWhileAux_all, ← propertyNames_false_eq]
    cases h : (JSObject.ownIndexedNames o false).all p <;> simp [h]

/-- The rejection condition for updating an existing property, as the spec
states it: the property is non-configurable and the request changes
configurable, enumerable, or the accessor/data kind; or it is
non-configurable-and-non-writable data and the request changes the value or
sets writable. -/
def updateRejectsP (cur : PropertyFlags) (dp : DefinePropertyFlags)
    (curV v : HermesValue) : Prop :=
  cur.configurable = false ∧
  ((dp.setConfigurable = true ∧ dp.configurable ≠ cur.configurable) ∨
   (dp.setEnumerable = true ∧ dp.enumerable ≠ cur.enumerable) ∨
   (dp.isAccessor = true ∧ cur.accessor = false) ∨
   (dp.setValue = true ∧ cur.accessor = true) ∨
   (cur.accessor = false ∧ cur.writable = false ∧
    ((dp.setWritable = true ∧ dp.writable = true) ∨
     (dp.setValue = true ∧ v ≠ curV))))

instance (cur : PropertyFlags) (dp : DefinePropertyFlags)
    (curV v : HermesValue) : Decidable (updateRejectsP cur dp curV v) := by
  unfold updateRejectsP
  infer_instance

/-- The full rejection condition of defineOwnProperty: a missing property
is rejected when the object is non-extensible (and the insertion is not
being forced via InternalForce); an existing property is rejected by the
update-validity rules. -/
def rejectCondition (o : JSObject) (name : String)
    (dp : DefinePropertyFlags) (v : HermesValue) (op : PropOpFlags) : Prop :=
  match o.clazz.findProperty name with
  | none => o.flags.noExtend = true ∧ op.internalForce = false
  | some (slot, cur) =>
      updateRejectsP cur dp (JSObject.getNamedSlotValue o slot) v

instance (o : JSObject) (name : String) (dp : DefinePropertyFlags)
    (v : HermesValue) (op : PropOpFlags) :
    Decidable (rejectCondition o name dp v op) := by
  unfold rejectCondition
  split
  · infer_instance
  · infer_instance

theorem checkPropertyUpdate_cases (cur : PropertyFlags)
    (dp : DefinePropertyFlags) (curV v : HermesValue) (op : PropOpFlags) :
    (updateRejectsP cur dp curV v →
      JSObject.checkPropertyUpdate cur dp curV v op =
        JSObject.propertyUpdateReject cur op) ∧
    (¬ updateRejectsP cur dp curV v →
      JSObject.checkPropertyUpdate cur dp curV v op =
        (if dp.setValue || dp.isAccessor then
          .returned (.needSet, JSObject.applyDpFlags cur dp)
        else .returned (.done, JSObject.applyDpFlags cur dp))) := by
  unfold JSObject.checkPropertyUpdate
  split
  · next hA =>
      simp only [Bool.and_eq_true, Bool.or_eq_true, Bool.not_eq_true',
        bne_iff_ne] at hA
      have hrej : updateRejectsP cur dp curV v := by
        unfold updateRejectsP
        tauto
      exact ⟨fun _ => rfl, fun hn => absurd hrej hn⟩
  · next hA =>
      split
      · next hB =>
          simp only [Bool.and_eq_true, Bool.or_eq_true, Bool.not_eq_true',
            bne_iff_ne] at hB
          have hrej : updateRejectsP cur dp curV v := by
            unfold updateRejectsP
            tauto
          exact ⟨fun _ => rfl, fun hn => absurd hrej hn⟩
      · next hB =>
          split
          · next hC =>
              simp only [Bool.and_eq_true, Bool.or_eq_true, Bool.not_eq_true',
                bne_iff_ne] at hC
              have hrej : updateRejectsP cur dp curV v := by
                unfold updateRejectsP
                tauto
              exact ⟨fun _ => rfl, fun hn => absurd hrej hn⟩
          · next hC =>
              simp only [Bool.and_eq_true, Bool.or_eq_true, Bool.not_eq_true',
                bne_iff_ne] at hA hB hC
              have hnrej : ¬ updateRejectsP cur dp curV v := by
                unfold updateRejectsP
                tauto
              exact ⟨fun hr => absurd hr hnrej, fun _ => rfl⟩

/-- C1 (amended): defineOwnProperty rejects exactly when: the property is
missing and the object is non-extensible — unless opFlags.InternalForce is
set, which forces the insertion — or the existing property is
non-configurable and the request changes configurable, enumerable, or the
accessor/data kind, or the existing property is
non-configurable-and-non-writable data and the request changes the value or
sets writable.  On rejection it raises the TypeError-class failure exactly
when opFlags.ThrowOnError is set, and otherwise returns false leaving the
object — property flags and value included — unchanged; when not rejected
it returns true. -/
theorem C1_defineOwnProperty_rejection (o : JSObject) (name : String)
    (dp : DefinePropertyFlags) (v : HermesValue) (op : PropOpFlags) :
    (JSObject.defineOwnProperty o name dp v op = .exception ↔
      rejectCondition o name dp v op ∧ op.throwOnError = true) ∧
    (JSObject.defineOwnProperty o name dp v op = .returned (false, o) ↔
      rejectCondition o name dp v op ∧ op.throwOnError = false) ∧
    (¬ rejectCondition o name dp v op →
      ∃ o', JSObject.defineOwnProperty o name dp v op =
        .returned (true, o')) := by
  unfold rejectCondition JSObject.defineOwnProperty
  cases hfind : o.clazz.findProperty name with
  | none =>
      simp only [hfind]
      unfold JSObject.addOwnProperty
      cases hne : o.flags.noExtend <;> cases hif : op.internalForce <;>
        cases hth : op.throwOnError <;> simp [hne, hif, hth]
  | some pr =>
      obtain ⟨slot, cur⟩ := pr
      simp only [hfind]
      unfold JSObject.updateOwnProperty
      by_cases hrej :
        updateRejectsP cur dp (JSObject.getNamedSlotValue o slot) v
      · rw [(checkPropertyUpdate_cases cur dp
          (JSObject.getNamedSlotValue o slot) v op).1 hrej]
        unfold JSObject.propertyUpdateReject
        cases hth : op.throwOnError <;> simp [hth, hrej]
      · rw [(checkPropertyUpdate_cases cur dp
          (JSObject.getNamedSlotValue o slot) v op).2 hrej]
        cases hsv : (dp.setValue || dp.isAccessor) <;> simp [hsv, hrej]

/-- Counterexample to C1 as stated: with InternalForce set (documented in
the header as forcing the insertion no matter what), defining a new
property on a non-extensible object is NOT rejected — the call succeeds
with result true even though the claim requires rejection whenever the
object is non-extensible and the property does not exist. -/
theorem C1_counterexample_internalForce :
    (JSObject.preventExtensions (JSObject.create none false)).flags.noExtend
      = true ∧
    (JSObject.preventExtensions
        (JSObject.create none false)).clazz.findProperty "x" = none ∧
    JSObject.defineOwnProperty
        (JSObject.preventExtensions (JSObject.create none false)) "x"
        DefinePropertyFlags.getDefaultNewPropertyFlags (.number 1)
        { internalForce := true } =
      .returned (true, JSObject.addOwnPropertyImpl
        (JSObject.preventExtensions (JSObject.create none false)) "x"
        (JSObject.PropertyFlags.fromDpFlags
          DefinePropertyFlags.getDefaultNewPropertyFlags) (.number 1)) :=
  ⟨rfl, rfl, by decide⟩

/-- A concrete object with one non-configurable (sealed) property named
x. -/
def nonConfigObject : JSObject :=
  JSObject.addOwnPropertyImpl (JSObject.create none false) "x"
    { enumerable := true, writable := true, configurable := false }
    (.number 7)

/-- A defineProperty request that sets configurable to true. -/
def dpSetConfigurable : DefinePropertyFlags :=
  { setConfigurable := true, configurable := true }

/-- Witness for the amended C1: reconfiguring a non-configurable property
with ThrowOnError unset returns false and leaves the object unchanged. -/
theorem C1_defineOwnProperty_rejection_witness :
    rejectCondition nonConfigObject "x" dpSetConfigurable (.number 0) { } ∧
    JSObject.defineOwnProperty nonConfigObject "x" dpSetConfigurable
        (.number 0) { } = .returned (false, nonConfigObject) :=
  ⟨by decide,
    (C1_defineOwnProperty_rejection nonConfigObject "x" dpSetConfigurable
      (.number 0) { }).2.1.mpr ⟨by decide, rfl⟩⟩

namespace Heap

theorem lookup_update_ne (h : Heap) (id x : Nat) (f : JSObject → JSObject)
    (hne : x ≠ id) : (h.update id f).lookup x = h.lookup x := by
  induction h with
  | nil => rfl
  | cons e rest ih =>
      obtain ⟨k, o⟩ := e
      unfold update at ih ⊢
      by_cases hk : k = id
      · subst hk
        simp only [List.map_cons, if_pos rfl]
        have hxk : (x == k) = false := beq_false_of_ne hne
        simp [List.lookup, hxk, ih]
      · simp only [List.map_cons, if_neg hk]
        by_cases hxk : x = k
        · subst hxk
          simp [List.lookup]
        · have hb : (x == k) = false := beq_false_of_ne hxk
          simp [List.lookup, hb, ih]

theorem lookup_update_self (h : Heap) (id : Nat) (f : JSObject → JSObject) :
    (h.update id f).lookup id = (h.lookup id).map f := by
  induction h with
  | nil => rfl
  | cons e rest ih =>
      obtain ⟨k, o⟩ := e
      unfold update at ih ⊢
      by_cases hk : k = id
      · subst hk
        simp only [List.map_cons, if_pos rfl]
        simp [List.lookup, ih]
      · have hb : (id == k) = false := beq_false_of_ne (Ne.symm hk)
        simp only [List.map_cons, if_neg hk]
        simp [List.lookup, hb, ih]

theorem parentOf_update_ne (h : Heap) (id x : Nat) (f : JSObject → JSObject)
    (hne : x ≠ id) : parentOf (h.update id f) x = parentOf h x := by
  unfold parentOf
  rw [lookup_update_ne h id x f hne]

theorem iterParent_add (h : Heap) (m n x : Nat) :
    iterParent h (m + n) x =
      (iterParent h m x).bind (iterParent h n) := by
  induction m generalizing x with
  | zero => simp [iterParent]
  | succ m ih =>
      have hrw : m + 1 + n = (m + n) + 1 := by omega
      rw [hrw]
      show (parentOf h x).bind (iterParent h (m + n)) =
        ((parentOf h x).bind (iterParent h m)).bind (iterParent h n)
      cases hp : parentOf h x with
      | none => simp
      | some y => simpa using ih y

theorem chainContains_sound (h : Heap) (fuel : Nat) :
    ∀ s t, chainContains h fuel (some s) t = true →
      ∃ n, iterParent h n s = some t := by
  induction fuel with
  | zero =>
      intro s t hc
      unfold chainContains at hc
      exact ⟨0, by simp [iterParent, of_decide_eq_true hc]⟩
  | succ fuel ih =>
      intro s t hc
      unfold chainContains at hc
      rw [Bool.or_eq_true] at hc
      cases hc with
      | inl heq => exact ⟨0, by simp [iterParent, of_decide_eq_true heq]⟩
      | inr hrest =>
          cases hp : parentOf h s with
          | none => rw [hp] at hrest; simp [chainContains] at hrest
          | some y =>
              rw [hp] at hrest
              obtain ⟨n, hn⟩ := ih y t hrest
              exact ⟨n + 1, by
                have : (1 : Nat) + n = n + 1 := by omega
                rw [← this, iterParent_add]
                simp [iterParent, hp, hn]⟩

theorem chainContains_complete_fuel (h : Heap) :
    ∀ n fuel s t, iterParent h n s = some t → n ≤ fuel →
      chainContains h fuel (some s) t = true := by
  intro n
  induction n with
  | zero =>
      intro fuel s t hit _
      simp only [iterParent] at hit
      injection hit with hst
      subst hst
      cases fuel <;> simp [chainContains]
  | succ n ih =>
      intro fuel s t hit hle
      obtain ⟨fuel, rfl⟩ : ∃ f, fuel = f + 1 :=
        ⟨fuel - 1, by omega⟩
      unfold iterParent at hit
      cases hp : parentOf h s with
      | none => rw [hp] at hit; simp at hit
      | some y =>
          rw [hp] at hit
          have hit2 : iterParent h n y = some t := hit
          unfold chainContains
          rw [Bool.or_eq_true]
          exact Or.inr (hp ▸ ih fuel y t hit2 (by omega))

theorem lookup_some_mem (h : Heap) (x : Nat) (o : JSObject)
    (hl : h.lookup x = some o) : x ∈ h.map Prod.fst := by
  induction h with
  | nil => simp [List.lookup] at hl
  | cons e rest ih =>
      obtain ⟨k, w⟩ := e
      by_cases hxk : x = k
      · subst hxk
        simp
      · have hb : (x == k) = false := beq_false_of_ne hxk
        simp only [List.lookup, hb] at hl
        simp [ih hl]

theorem parentOf_some_mem_keys (h : Heap) {x y : Nat}
    (hp : parentOf h x = some y) : x ∈ h.map Prod.fst := by
  unfold parentOf at hp
  cases hl : h.lookup x with
  | none => rw [hl] at hp; simp at hp
  | some o => exact lookup_some_mem h x o hl

theorem chain_step_defined (h : Heap) {n s t : Nat} (i : Nat)
    (hit : iterParent h n s = some t) (hle : i ≤ n) :
    ∃ x, iterParent h i s = some x := by
  have hsplit : n = i + (n - i) := by omega
  rw [hsplit, iterParent_add] at hit
  cases hx : iterParent h i s with
  | none => rw [hx] at hit; simp at hit
  | some x => exact ⟨x, rfl⟩

theorem chain_length_le (h : Heap) (hac : Acyclic h) :
    ∀ n s t, iterParent h n s = some t → n ≤ h.length := by
  intro n s t hit
  by_contra hgt
  push_neg at hgt
  have hdef : ∀ i, i < n → ∃ x, iterParent h i s = some x :=
    fun i hi => chain_step_defined h i hit (by omega)
  set f : Nat → Nat := fun i => (iterParent h i s).getD 0 with hf
  have hfi : ∀ i, i < n → iterParent h i s = some (f i) := by
    intro i hi
    obtain ⟨x, hx⟩ := hdef i hi
    show iterParent h i s = some ((iterParent h i s).getD 0)
    rw [hx]
    rfl
  have hmem : ∀ i, i < n → f i ∈ h.map Prod.fst := by
    intro i hi
    have h1 : ∃ y, iterParent h (i + 1) s = some y := by
      rcases Nat.lt_or_ge (i + 1) n with hlt | hge
      · exact hdef _ hlt
      · have hieq : i + 1 = n := by omega
        exact hieq ▸ ⟨t, hit⟩
    obtain ⟨y, hy⟩ := h1
    rw [iterParent_add h i 1 s, hfi i hi] at hy
    have hy2 : iterParent h 1 (f i) = some y := hy
    have hp : parentOf h (f i) = some y := by
      have hy3 : (parentOf h (f i)).bind (iterParent h 0) = some y := hy2
      cases hpp : parentOf h (f i) with
      | none => rw [hpp] at hy3; simp at hy3
      | some z =>
          rw [hpp] at hy3
          have hz : iterParent h 0 z = some y := hy3
          have hzy : z = y := by simpa [iterParent] using hz
          rw [hzy]
    exact parentOf_some_mem_keys h hp
  have key : ∀ i j, i < j → j < n → f i = f j → False := by
    intro i j hij hjn hfeq
    have hsplit : j = i + (j - i) := by omega
    have hj2 : iterParent h (i + (j - i)) s = some (f j) := by
      rw [← hsplit]
      exact hfi j hjn
    rw [iterParent_add, hfi i (by omega)] at hj2
    have hcyc : iterParent h (j - i) (f i) = some (f j) := hj2
    rw [← hfeq] at hcyc
    exact hac (f i) ⟨j - i, by omega, hcyc⟩
  have hinj : Set.InjOn f (Finset.range n) := by
    intro i hi j hj hij
    simp only [Finset.coe_range, Set.mem_Iio] at hi hj
    by_contra hne
    rcases Nat.lt_or_ge i j with hlt | hge
    · exact key i j hlt hj hij
    · exact key j i (by omega) hi hij.symm
  have hcard := Finset.card_le_card_of_injOn f
    (fun i hi => List.mem_toFinset.mpr
      (hmem i (Finset.mem_range.mp hi))) hinj
  have hle2 : (h.map Prod.fst).toFinset.card ≤ h.length := by
    have := (h.map Prod.fst).toFinset_card_le
    simpa using this
  simp only [Finset.card_range] at hcard
  omega

theorem iterParent_update_of_avoid (h : Heap) (id : Nat)
    (f : JSObject → JSObject) :
    ∀ n a, (∀ i, i < n → iterParent (h.update id f) i a ≠ some id) →
      iterParent (h.update id f) n a = iterParent h n a := by
  intro n
  induction n with
  | zero => intro a _; rfl
  | succ n ih =>
      intro a havoid
      have ha : a ≠ id := by
        intro heq
        exact havoid 0 (by omega) (by simp [iterParent, heq])
      show (parentOf (h.update id f) a).bind (iterParent (h.update id f) n) =
        (parentOf h a).bind (iterParent h n)
      rw [parentOf_update_ne h id a f ha]
      cases hp : parentOf h a with
      | none => rfl
      | some y =>
          show iterParent (h.update id f) n y = iterParent h n y
          apply ih y
          intro i hi hcontra
          have hstep : iterParent (h.update id f) (i + 1) a =
              iterParent (h.update id f) i y := by
            show (parentOf (h.update id f) a).bind
              (iterParent (h.update id f) i) = _
            rw [parentOf_update_ne h id a f ha, hp]
            rfl
          exact havoid (i + 1) (by omega) (hstep.trans hcontra)

theorem first_arrival (h : Heap) (x t m : Nat)
    (hm : iterParent h m x = some t) :
    ∃ k, k ≤ m ∧ iterParent h k x = some t ∧
      ∀ i, i < k → iterParent h i x ≠ some t := by
  have hex : ∃ k, iterParent h k x = some t := ⟨m, hm⟩
  exact ⟨Nat.find hex, Nat.find_min' hex hm, Nat.find_spec hex,
    fun i hi => Nat.find_min hex hi⟩

theorem cycle_through (h : Heap) (a s n i : Nat)
    (hcyc : iterParent h n a = some a) (hi : i ≤ n)
    (hs : iterParent h i a = some s) :
    iterParent h n s = some s := by
  have hsplit : n = i + (n - i) := by omega
  rw [hsplit, iterParent_add, hs] at hcyc
  have h1 : iterParent h (n - i) s = some a := hcyc
  have h2 : iterParent h ((n - i) + i) s = some s := by
    rw [iterParent_add, h1]
    exact hs
  rw [show (n - i) + i = n by omega] at h2
  exact h2

theorem setParent_preserves_acyclic (h : Heap) (selfId : Nat)
    (p : Option Nat) (hac : Acyclic h) :
    Acyclic (setParent h selfId p).2 := by
  unfold setParent
  cases hl : h.lookup selfId with
  | none => exact hac
  | some o =>
      simp only
      split
      · exact hac
      · split
        · exact hac
        · split
          · exact hac
          · next hcc =>
              intro a hreach
              obtain ⟨n, hn0, hcyc⟩ := hreach
              by_cases hpass : ∃ i, i ≤ n ∧
                  iterParent (h.update selfId fun q =>
                    { q with parentId := p }) i a = some selfId
              · obtain ⟨i, hile, hi⟩ := hpass
                have hcycS := cycle_through _ a selfId n i hcyc hile hi
                have hparent : parentOf (h.update selfId fun q =>
                    { q with parentId := p }) selfId = p := by
                  unfold parentOf
                  rw [lookup_update_self, hl]
                  rfl
                obtain ⟨n1, rfl⟩ : ∃ m, n = m + 1 := ⟨n - 1, by omega⟩
                have hstep : iterParent (h.update selfId fun q =>
                    { q with parentId := p }) (n1 + 1) selfId =
                    (parentOf (h.update selfId fun q =>
                      { q with parentId := p }) selfId).bind
                      (iterParent (h.update selfId fun q =>
                        { q with parentId := p }) n1) := rfl
                rw [hstep, hparent] at hcycS
                cases p with
                | none => simp at hcycS
                | some pId =>
                    have hc1 : iterParent (h.update selfId fun q =>
                        { q with parentId := some pId }) n1 pId =
                        some selfId := hcycS
                    obtain ⟨k, hkle, hk, hkmin⟩ :=
                      first_arrival _ pId selfId n1 hc1
                    have hkold : iterParent h k pId = some selfId := by
                      rw [← iterParent_update_of_avoid h selfId
                        (fun q => { q with parentId := some pId }) k pId
                        (fun i hik hcon => hkmin i hik hcon)]
                      exact hk
                    have hklen : k ≤ h.length :=
                      chain_length_le h hac k pId selfId hkold
                    have hfound : chainContains h h.length (some pId) selfId
                        = true :=
                      chainContains_complete_fuel h k h.length pId selfId
                        hkold hklen
                    exact hcc hfound
              · push_neg at hpass
                have heq : iterParent (h.update selfId fun q =>
                    { q with parentId := p }) n a = iterParent h n a := by
                  apply iterParent_update_of_avoid
                  intro i hi
                  exact hpass i (by omega)
                rw [heq] at hcyc
                exact hac a ⟨n, hn0, hcyc⟩

end Heap

/-- Object A of the C7 scenario: prototype is B (heap id 1). -/
def objA : JSObject := JSObject.create (some 1) false

/-- Object B of the C7 scenario: no prototype. -/
def objB : JSObject := JSObject.create none false

/-- The concrete two-object heap of the C7 scenario: A (id 0) with
prototype B (id 1). -/
def heapAB : Heap := [(0, objA), (1, objB)]

theorem parentOf_heapAB_other (a : Nat) (h0 : a ≠ 0) (h1 : a ≠ 1) :
    Heap.parentOf heapAB a = none := by
  unfold Heap.parentOf heapAB
  simp [List.lookup, beq_false_of_ne h0, beq_false_of_ne h1]

theorem acyclic_heapAB : Heap.Acyclic heapAB := by
  intro a hreach
  obtain ⟨n, hn0, hcyc⟩ := hreach
  obtain ⟨k, rfl⟩ : ∃ k, n = k + 1 := ⟨n - 1, by omega⟩
  by_cases h0 : a = 0
  · subst h0
    have hstep : Heap.iterParent heapAB (k + 1) 0 =
        Heap.iterParent heapAB k 1 := by
      show (Heap.parentOf heapAB 0).bind (Heap.iterParent heapAB k) = _
      rw [show Heap.parentOf heapAB 0 = some 1 from rfl]
      rfl
    rw [hstep] at hcyc
    cases k with
    | zero => simp [Heap.iterParent] at hcyc
    | succ j =>
        have hs2 : Heap.iterParent heapAB (j + 1) 1 =
            (Heap.parentOf heapAB 1).bind (Heap.iterParent heapAB j) := rfl
        rw [hs2, show Heap.parentOf heapAB 1 = none from rfl] at hcyc
        simp at hcyc
  · by_cases h1 : a = 1
    · subst h1
      have hs2 : Heap.iterParent heapAB (k + 1) 1 =
          (Heap.parentOf heapAB 1).bind (Heap.iterParent heapAB k) := rfl
      rw [hs2, show Heap.parentOf heapAB 1 = none from rfl] at hcyc
      simp at hcyc
    · have hs2 : Heap.iterParent heapAB (k + 1) a =
          (Heap.parentOf heapAB a).bind (Heap.iterParent heapAB k) := rfl
      rw [hs2, parentOf_heapAB_other a h0 h1] at hcyc
      simp at hcyc

/-- C7: for object A with prototype B, setParent(A, A) fails with a
prototype-cycle exception and leaves A's prototype link unchanged, still
referring to B; more generally, a single setParent call — and hence any
sequence of setParent calls — never creates a cycle in the prototype
chains of an acyclic heap. -/
theorem C7_setParent_cycle_rejection :
    ((Heap.setParent heapAB 0 (some 0)).1 = .exception ∧
     (Heap.setParent heapAB 0 (some 0)).2 = heapAB ∧
     Heap.parentOf (Heap.setParent heapAB 0 (some 0)).2 0 = some 1) ∧
    (∀ (h : Heap) (selfId : Nat) (p : Option Nat), Heap.Acyclic h →
      Heap.Acyclic (Heap.setParent h selfId p).2) ∧
    (∀ (calls : List (Nat × Option Nat)) (h : Heap), Heap.Acyclic h →
      Heap.Acyclic (calls.foldl
        (fun hh c => (Heap.setParent hh c.1 c.2).2) h)) := by
  refine ⟨⟨by decide, by decide, by decide⟩,
    fun h selfId p hac => Heap.setParent_preserves_acyclic h selfId p hac,
    ?_⟩
  intro calls
  induction calls with
  | nil => exact fun h hac => hac
  | cons c rest ih =>
      exact fun h hac =>
        ih _ (Heap.setParent_preserves_acyclic h c.1 c.2 hac)

/-- Witness for C7: the preservation conjunct applied to the concrete
acyclic two-object heap. -/
theorem C7_setParent_cycle_rejection_witness :
    Heap.Acyclic heapAB ∧
    Heap.Acyclic (Heap.setParent heapAB 1 (some 0)).2 :=
  ⟨acyclic_heapAB,
    C7_setParent_cycle_rejection.2.1 heapAB 1 (some 0) acyclic_heapAB⟩

/-- C10: setParent with the identical current prototype succeeds and
changes nothing even when the object is non-extensible, whereas on a
non-extensible object any different prototype — cycle or not — makes
setParent fail. -/
theorem C10_setParent_nonextensible (h : Heap) (id : Nat) (o : JSObject)
    (p : Option Nat) (hl : h.lookup id = some o) :
    (p = o.parentId → Heap.setParent h id p = (.returned, h)) ∧
    (o.flags.noExtend = true → p ≠ o.parentId →
      Heap.setParent h id p = (.exception, h)) := by
  unfold Heap.setParent
  simp only [hl]
  constructor
  · intro hp
    rw [if_pos hp]
  · intro hne hnp
    rw [if_neg hnp, if_pos hne]

/-- The non-extensible variant of object A, with prototype B. -/
def objANX : JSObject :=
  JSObject.preventExtensions (JSObject.create (some 1) false)

/-- A heap holding the non-extensible A (id 0) and B (id 1). -/
def heapNX : Heap := [(0, objANX), (1, objB)]

/-- Witness for C10: on the non-extensible object, re-assigning the
identical prototype succeeds and changes nothing, while assigning null (no
cycle possible) fails. -/
theorem C10_setParent_nonextensible_witness :
    heapNX.lookup 0 = some objANX ∧
    Heap.setParent heapNX 0 (some 1) = (.returned, heapNX) ∧
    Heap.setParent heapNX 0 none = (.exception, heapNX) :=
  ⟨rfl,
   (C10_setParent_nonextensible heapNX 0 objANX (some 1) rfl).1 rfl,
   (C10_setParent_nonextensible heapNX 0 objANX none rfl).2 rfl
     (by decide)⟩

end HermesModel
